import Mathlib

/-!
smallsh (customshell.c): process control, redirection, job table, status.

A shallow embedding of `src/customshell.c`.  Global variables and the part of
the process environment the program acts on (descriptor bindings, signal
dispositions, what was written to the terminal, the system calls issued) are
fields of one record `Shell`; every C function is a Lean function from states
to states.  The answers of the operating system (`fork`, `open`, `execvp`,
`waitpid`, `sigprocmask`) are parameters, so every theorem quantifies over all
of them.
-/

set_option maxRecDepth 100000

namespace CustomShell

/-! ## Wait-status macros of `<sys/wait.h>` (glibc), on a C `int` -/

/-- Conversion to `signed char`: the low eight bits, read in two's complement. -/
def toSignedChar (n : Int) : Int :=
  if n % 256 < 128 then n % 256 else n % 256 - 256

/-- The macro `WTERMSIG(status)`, which is `status & 0x7f`. -/
def WTERMSIG (status : Int) : Int := status % 128

/-- The macro `WEXITSTATUS(status)`, which is `(status & 0xff00) >> 8`. -/
def WEXITSTATUS (status : Int) : Int := (status / 256) % 256

/-- The macro `WIFEXITED(status)`, which is `WTERMSIG(status) == 0`. -/
def WIFEXITED (status : Int) : Bool := WTERMSIG status == 0

/-- The macro `WIFSIGNALED(status)`, which is
`((signed char) ((status & 0x7f) + 1) >> 1) > 0`. -/
def WIFSIGNALED (status : Int) : Bool :=
  decide (0 < toSignedChar (WTERMSIG status + 1) / 2)

/-- The conversion `%d` of `printf`. -/
def fmtInt (n : Int) : String := toString n

/-! ## Data model -/

/-- Disposition of a signal: ignored, default action, or the handler `catchSIGTSTP`. -/
inductive Disposition where
  | SIG_IGN
  | SIG_DFL
  | catchSIGTSTP
  deriving DecidableEq, Repr

/-- The flag words the program passes to `open`. -/
inductive OpenFlags where
  | O_RDONLY
  | O_WRONLY
  | O_WRONLY_CREAT_TRUNC
  deriving DecidableEq, Repr

/-- What a standard descriptor refers to: whatever the process inherited, or a
file the process opened itself and installed with `dup2`. -/
inductive Binding where
  | inherited
  | file (path : String) (flags : OpenFlags)
  deriving DecidableEq, Repr

/-- Answer of one `waitpid` call: a child was collected (return value `> 0`,
its status stored through the pointer), nothing to collect yet (return value
`0`, only with `WNOHANG`), or an error (return value `-1`). -/
inductive WaitResult where
  | reaped (status : Int)
  | pending
  | failed
  deriving DecidableEq, Repr

/-- One call of `open`: the path given (`none` is NULL), the flags, and whether
a descriptor was obtained. -/
structure OpenCall where
  path : Option String
  flags : OpenFlags
  ok : Bool
  deriving DecidableEq, Repr

/-- The globals of `customshell.c` together with the observable process
environment.  `out` and `err` list, oldest first, what was written to standard
output and the messages given to `perror`; `waited` and `killed` list the pids
passed to `waitpid` and to `kill(_, SIGKILL)`; `opened` lists the calls of
`open` and `chdirs` the arguments of the calls of `chdir`. -/
structure Shell where
  pidIndex : Nat
  pidArray : List Int
  isForegroundOnly : Bool
  childExitMethod : Int
  askInput : Bool
  out : List String
  err : List String
  fd0 : Binding
  fd1 : Binding
  sigint : Disposition
  sigtstp : Disposition
  tstpBlocked : Bool
  waited : List Int
  killed : List Int
  opened : List OpenCall
  chdirs : List (Option String)
  deriving DecidableEq, Repr

/-- The token array built by `tokenizeString`: `none` is a NULL entry. -/
abbrev Tokens := List (Option String)

/-- How a piece of C code ends: it returns to its caller, the process
terminates through `exit(code)`, the process image is replaced by `execvp`,
the behaviour is undefined in C, or the iteration bound of the model was
reached. -/
inductive Flow (α : Type) where
  | returned (a : α)
  | exited (code : Nat) (a : α)
  | replaced (file : String) (argv : List String) (a : α)
  | undefined
  | outOfFuel
  deriving DecidableEq, Repr

/-- The state at program start: the initialisers of the globals, the standard
descriptors as inherited, default signal dispositions, nothing written. -/
def Shell.initial : Shell where
  pidIndex := 0
  pidArray := List.replicate 100 0
  isForegroundOnly := false
  childExitMethod := -5
  askInput := true
  out := []
  err := []
  fd0 := Binding.inherited
  fd1 := Binding.inherited
  sigint := Disposition.SIG_DFL
  sigtstp := Disposition.SIG_DFL
  tstpBlocked := false
  waited := []
  killed := []
  opened := []
  chdirs := []

/-! ## `isBackgroundProcess` -/

/-- The function `isBackgroundProcess(commandLine, lastIndex)`.  `strcmp` on a
NULL entry or on an entry outside the array is undefined, which is `none`.
Otherwise the result is the returned flag, the token array and the globals
afterwards. -/
def isBackgroundProcess (commandLine : Tokens) (lastIndex : Int) (st : Shell) :
    Option (Bool × Tokens × Shell) :=
  if lastIndex < 0 then none
  else
    match commandLine[lastIndex.toNat]? with
    | none => none
    | some none => none
    | some (some tok) =>
      if tok = "&" then
        let commandLine1 := commandLine.set lastIndex.toNat none
        if st.isForegroundOnly = true then
          some (false, commandLine1, st)
        else
          some (true, commandLine1, st)
      else
        some (false, commandLine, st)

/-! ## `catchSIGTSTP` -/

/-- The call `write(STDOUT_FILENO, buf, n)`: the first `n` bytes of `buf` (all
messages of the program are ASCII, one byte per character). -/
def writeBytes (buf : String) (n : Nat) : String := String.mk (buf.data.take n)

/-- The signal handler `catchSIGTSTP`. -/
def catchSIGTSTP (st : Shell) : Shell :=
  if st.isForegroundOnly = false then
    let foreground := "Entering foreground-only mode (& is now ignored)\n"
    { st with out := st.out ++ [writeBytes foreground 49], isForegroundOnly := true }
  else
    let fullShell := "Exiting foreground-only mode\n"
    { st with out := st.out ++ [writeBytes fullShell 29], isForegroundOnly := false }

/-! ## `getStatus` -/

/-- The function `getStatus`. -/
def getStatus (st : Shell) : Shell :=
  if WIFSIGNALED st.childExitMethod = true then
    { st with out := st.out ++
        ["terminated by signal " ++ fmtInt (WTERMSIG st.childExitMethod) ++ "\n"] }
  else
    { st with out := st.out ++
        ["exit value " ++ fmtInt (WEXITSTATUS st.childExitMethod) ++ "\n"] }

/-! ## `ioRedirect`, `execError`, `executeCommand` -/

/-- The call `perror(msg)`: the message is recorded on the error stream. -/
def perror (msg : String) (st : Shell) : Shell :=
  { st with err := st.err ++ [msg] }

/-- The call `open(path, flags, mode)`.  A NULL path fails (EFAULT); for a
string the environment answers, `openOk k` being the answer to call number `k`
of the process.  On success the result is the open file, for `dup2`. -/
def sysOpen (openOk : Nat → Bool) (path : Option String) (flags : OpenFlags) (st : Shell) :
    Option Binding × Shell :=
  match path with
  | none => (none, { st with opened := st.opened ++ [OpenCall.mk none flags false] })
  | some p =>
    if openOk st.opened.length = true then
      (some (Binding.file p flags),
        { st with opened := st.opened ++ [OpenCall.mk (some p) flags true] })
    else
      (none, { st with opened := st.opened ++ [OpenCall.mk (some p) flags false] })

/-- The `for` loop of `ioRedirect`, entered at index `i`.  The first argument
bounds the number of iterations.  Reading the array past its end is
undefined. -/
def ioRedirectLoop (openOk : Nat → Bool) :
    Nat → Nat → Tokens → Shell → Flow (Tokens × Shell)
  | 0, _, _, _ => Flow.outOfFuel
  | fuel + 1, i, commandLine, st =>
    match commandLine[i]? with
    | none => Flow.undefined
    | some none => Flow.returned (commandLine, st)
    | some (some tok) =>
      if tok = ">" then
        match commandLine[i + 1]? with
        | none => Flow.undefined
        | some next =>
          match sysOpen openOk next OpenFlags.O_WRONLY_CREAT_TRUNC st with
          | (none, st1) =>
            Flow.exited 1 (commandLine, perror "ERROR: open() failed. Cannot output to file" st1)
          | (some outputFile, st1) =>
            ioRedirectLoop openOk fuel (i + 1) (commandLine.set i none)
              { st1 with fd1 := outputFile }
      else if tok = "<" then
        match commandLine[i + 1]? with
        | none => Flow.undefined
        | some next =>
          match sysOpen openOk next OpenFlags.O_RDONLY st with
          | (none, st1) =>
            Flow.exited 1 (commandLine, perror "ERROR: open() failed. Cannot input to file" st1)
          | (some inputFile, st1) =>
            ioRedirectLoop openOk fuel (i + 1) (commandLine.set i none)
              { st1 with fd0 := inputFile }
      else
        ioRedirectLoop openOk fuel (i + 1) commandLine st

/-- The function `ioRedirect(commandLine, runBackground)`. -/
def ioRedirect (openOk : Nat → Bool) (commandLine : Tokens) (runBackground : Bool)
    (st : Shell) : Flow (Tokens × Shell) :=
  if runBackground = true then
    match sysOpen openOk (some "/dev/null") OpenFlags.O_WRONLY st with
    | (none, st1) =>
      Flow.exited 1 (commandLine, perror "ERROR: open() failed. Cannot output to file" st1)
    | (some devNullOutput, st1) =>
      match sysOpen openOk (some "/dev/null") OpenFlags.O_RDONLY
          { st1 with fd1 := devNullOutput } with
      | (none, st2) =>
        Flow.exited 1 (commandLine, perror "ERROR: open() failed. Cannot input to file" st2)
      | (some devNullInput, st2) =>
        ioRedirectLoop openOk (commandLine.length + 1) 0 commandLine
          { st2 with fd0 := devNullInput }
  else
    ioRedirectLoop openOk (commandLine.length + 1) 0 commandLine st

/-- The function `execError`: diagnostic, then `exit(EXIT_FAILURE)`. -/
def execError (commandLine : Tokens) (st : Shell) : Flow (Tokens × Shell) :=
  Flow.exited 1 (commandLine, perror "ERROR: the command you entered does not exist" st)

/-- The argument vector `execvp` reads from the array: the entries before the
first NULL.  An array without a NULL entry is read past its end (`none`). -/
def argvOf : Tokens → Option (List String)
  | [] => none
  | none :: _ => some []
  | some tok :: rest => (argvOf rest).map (fun args => tok :: args)

/-- The call `execvp(file, argv)`.  With a NULL `file` or an unterminated
`argv` the behaviour is undefined.  Otherwise the environment decides
(`execOk`): the image is replaced, or the call returns. -/
def execvp (execOk : Bool) (file : Option String) (argv : Tokens) (st : Shell) :
    Flow (Tokens × Shell) :=
  match file, argvOf argv with
  | some f, some args =>
    if execOk = true then Flow.replaced f args (argv, st) else Flow.returned (argv, st)
  | _, _ => Flow.undefined

/-- The function `executeCommand(commandLine, runBackground)`. -/
def executeCommand (openOk : Nat → Bool) (execOk : Bool) (commandLine : Tokens)
    (runBackground : Bool) (st : Shell) : Flow (Tokens × Shell) :=
  match ioRedirect openOk commandLine runBackground st with
  | Flow.returned (commandLine1, st1) =>
    match execvp execOk commandLine1[0]?.join commandLine1 st1 with
    | Flow.returned (commandLine2, st2) => execError commandLine2 st2
    | other => other
  | other => other

/-! ## `createFork` -/

/-- The answers of the operating system during one call of `createFork`: the
value returned by `fork`, the answers to the calls of `open` and to `execvp`
(child), whether `sigprocmask` succeeds when blocking and when unblocking, and
the answers to the blocking `waitpid` and to the `WNOHANG` one. -/
structure Env where
  forkResult : Int
  openOk : Nat → Bool
  execOk : Bool
  blockOk : Bool
  unblockOk : Bool
  waitFg : WaitResult
  waitBg : WaitResult

/-- The call `waitpid(pid, &childExitMethod, options)` given its answer: the
flag says whether the return value is `> 0`; only then is the status stored. -/
def waitpid (answer : WaitResult) (pid : Int) (st : Shell) : Bool × Shell :=
  match answer with
  | WaitResult.reaped status =>
    (true, { st with childExitMethod := status, waited := st.waited ++ [pid] })
  | _ => (false, { st with waited := st.waited ++ [pid] })

/-- The `default:` arm of the `switch` in `createFork` (the parent).  Storing
past the hundred slots of `pidArray` is undefined. -/
def createForkParent (env : Env) (spawnPid : Int) (isBackground : Bool)
    (commandLine : Tokens) (st : Shell) : Flow (Tokens × Shell) :=
  if isBackground = true then
    let st1 := { st with out := st.out ++ ["background pid is " ++ fmtInt spawnPid ++ "\n"] }
    if st1.pidIndex < 100 then
      let st2 := { st1 with
        pidArray := st1.pidArray.set st1.pidIndex spawnPid, pidIndex := st1.pidIndex + 1 }
      Flow.returned (commandLine, (waitpid env.waitBg spawnPid st2).2)
    else
      Flow.undefined
  else
    if env.blockOk = false then
      Flow.exited 1 (commandLine, perror "ERROR: Blocking SIGTSTP has failed!" st)
    else
      match waitpid env.waitFg spawnPid { st with tstpBlocked := true } with
      | (true, st1) =>
        if env.unblockOk = false then
          Flow.exited 1 (commandLine, perror "ERROR: Unblocking SIGTSTP has failed!" st1)
        else
          let st2 := { st1 with tstpBlocked := false }
          if WIFSIGNALED st2.childExitMethod = true then
            Flow.returned (commandLine, { st2 with out := st2.out ++
              ["terminated by signal " ++ fmtInt (WTERMSIG st2.childExitMethod) ++ "\n"] })
          else
            Flow.returned (commandLine, st2)
      | (false, st1) => Flow.returned (commandLine, st1)

/-- The function `createFork(commandLine, lastIndex, terminateFgChild,
ignoreSIGTSTP)`, followed in the process in which `fork` returned
`env.forkResult`.  The two `sigaction` records are given by their handlers.
`case 0` has no `break`: if `executeCommand` returned, control would continue
in the `default:` arm. -/
def createFork (env : Env) (commandLine : Tokens) (lastIndex : Int)
    (terminateFgChild ignoreSIGTSTP : Disposition) (st : Shell) : Flow (Tokens × Shell) :=
  match isBackgroundProcess commandLine lastIndex st with
  | none => Flow.undefined
  | some (isBackground, commandLine1, st1) =>
    if env.forkResult = -1 then
      Flow.exited 1 (commandLine1, perror "ERROR: Unable to create fork\n" st1)
    else if env.forkResult = 0 then
      let st2 := if isBackground = false then { st1 with sigint := terminateFgChild } else st1
      let st3 := { st2 with sigtstp := ignoreSIGTSTP }
      match executeCommand env.openOk env.execOk commandLine1 isBackground st3 with
      | Flow.returned (commandLine2, st4) =>
        createForkParent env env.forkResult isBackground commandLine2 st4
      | other => other
    else
      createForkParent env env.forkResult isBackground commandLine1 st1

/-! ## `checkBackgroundStatus` -/

/-- One iteration of the loop of `checkBackgroundStatus`, for slot `i`;
`probe i` is the answer to the `waitpid` call issued for that slot. -/
def checkBackgroundStatusStep (probe : Nat → WaitResult) (st : Shell) (i : Nat) : Shell :=
  if st.pidArray.getD i 0 ≠ 0 then
    match waitpid (probe i) (st.pidArray.getD i 0) st with
    | (true, st1) =>
      let st2 :=
        if WIFSIGNALED st1.childExitMethod = true then
          { st1 with out := st1.out ++
            ["background pid " ++ fmtInt (st1.pidArray.getD i 0) ++
              " is done: terminated by signal: " ++ fmtInt (WTERMSIG st1.childExitMethod) ++ "\n"] }
        else if WIFEXITED st1.childExitMethod = true then
          { st1 with out := st1.out ++
            ["background pid " ++ fmtInt (st1.pidArray.getD i 0) ++
              " is done: exit value: " ++ fmtInt st1.childExitMethod ++ "\n"] }
        else st1
      { st2 with pidArray := st2.pidArray.set i 0 }
    | (false, st1) => st1
  else st

/-- The function `checkBackgroundStatus`: slots `0` to `99` in order. -/
def checkBackgroundStatus (probe : Nat → WaitResult) (st : Shell) : Shell :=
  (List.range 100).foldl (checkBackgroundStatusStep probe) st

/-! ## `killBackgroundProcesses`, `changeDirectory`, `builtInFunctions` -/

/-- One iteration of the loop of `killBackgroundProcesses`, for slot `i`. -/
def killBackgroundProcessesStep (st : Shell) (i : Nat) : Shell :=
  if st.pidArray.getD i 0 ≠ 0 then
    { st with killed := st.killed ++ [st.pidArray.getD i 0] }
  else st

/-- The function `killBackgroundProcesses`: slots `0` to `99` in order. -/
def killBackgroundProcesses (st : Shell) : Shell :=
  (List.range 100).foldl killBackgroundProcessesStep st

/-- The function `changeDirectory(commandLine)`.  The value of
`getenv("HOME")` is `home` and `chdirOk` says whether `chdir` on the given
directory succeeds.  Reading entry 1 past the array is undefined. -/
def changeDirectory (home : Option String) (chdirOk : Bool) (commandLine : Tokens)
    (st : Shell) : Flow (Tokens × Shell) :=
  match commandLine[1]? with
  | none => Flow.undefined
  | some none => Flow.returned (commandLine, { st with chdirs := st.chdirs ++ [home] })
  | some (some dir) =>
    if dir = "." then
      Flow.returned (commandLine, st)
    else if chdirOk = true then
      Flow.returned (commandLine, { st with chdirs := st.chdirs ++ [some dir] })
    else
      Flow.returned (commandLine,
        perror "\nERROR: The directory you have requested does not exist\n"
          { st with chdirs := st.chdirs ++ [some dir] })

/-- The function `builtInFunctions(commandLine, lastIndex, terminateFgChild,
ignoreSIGTSTP)`.  `strcmp` on a NULL entry 0 is undefined. -/
def builtInFunctions (env : Env) (home : Option String) (chdirOk : Bool)
    (commandLine : Tokens) (lastIndex : Int)
    (terminateFgChild ignoreSIGTSTP : Disposition) (st : Shell) : Flow (Tokens × Shell) :=
  match commandLine[0]? with
  | none => Flow.undefined
  | some none => Flow.undefined
  | some (some first) =>
    if first = "exit" then
      Flow.exited 0 (commandLine, killBackgroundProcesses st)
    else if first = "cd" then
      changeDirectory home chdirOk commandLine st
    else if first = "status" then
      Flow.returned (commandLine, getStatus st)
    else
      createFork env commandLine lastIndex terminateFgChild ignoreSIGTSTP st

/-! ## `numArguments`, `tokenizeString`, `checkEmptyLine` -/

/-- The function `isspace` of `<ctype.h>` in the C locale. -/
def isspace (c : Char) : Bool :=
  c == ' ' || c == '\t' || c == '\n' || c == '\x0b' || c == '\x0c' || c == '\r'

/-- The loop of `numArguments` on the characters before the terminating NUL
(the NUL itself is read last and is not a space). -/
def numArgumentsLoop : List Char → Int → Int
  | [], totalArguments => totalArguments
  | c :: rest, totalArguments =>
    numArgumentsLoop rest (if isspace c = true then totalArguments + 1 else totalArguments)

/-- The function `numArguments(userString)`. -/
def numArguments (userString : List Char) : Int :=
  numArgumentsLoop userString 0 - 1

/-- The successive results of `strtok` with the delimiters `" \n"`: the maximal
runs of other characters; `current` is the run being read. -/
def strtokAll : List Char → List Char → List String
  | [], current => if current = [] then [] else [String.mk current]
  | c :: rest, current =>
    if c = ' ' ∨ c = '\n' then
      if current = [] then strtokAll rest [] else String.mk current :: strtokAll rest []
    else strtokAll rest (current ++ [c])

/-- The function `tokenizeString(commandLine)`: the tokens, then the NULL that
ended the loop.  The first result of `strtok` is stored before the loop, so a
line without a token gives two NULL entries.  The array has `MAX_ARGS` = 512
entries; the entries after the NULL are not initialised, and storing more than
512 entries is undefined. -/
def tokenizeString (commandLine : List Char) : Option Tokens :=
  match strtokAll commandLine [] with
  | [] => some [none, none]
  | tok :: toks =>
    if (tok :: toks).length + 1 ≤ 512 then
      some ((tok :: toks).map some ++ [none])
    else none

/-- The function `checkEmptyLine(lineEntered)`. -/
def checkEmptyLine (lineEntered : List Char) (st : Shell) : Shell :=
  if lineEntered.any (fun c => !isspace c) = true then { st with askInput := false } else st

/-! ## `variableExpansion` -/

/-- The call `strstr(s, "$$")`: the index of the first occurrence, if any. -/
def strstrDollars : List Char → Option Nat
  | [] => none
  | c :: rest =>
    if c = '$' ∧ rest.head? = some '$' then some 0
    else (strstrDollars rest).map (fun k => k + 1)

/-- The `while` loop of `variableExpansion`: `charPtr` is the index the pointer
has reached in the line.  The first argument bounds the number of iterations.
The capacity of the buffer that `getline` allocated is not part of the model. -/
def variableExpansionLoop (pidString : List Char) :
    Nat → Nat → Nat → List Char → Shell → Option (List Char × Shell)
  | 0, _, _, _, _ => none
  | fuel + 1, charPtr, buffSizeTrack, lineEntered, st =>
    match strstrDollars (lineEntered.drop charPtr) with
    | none => some (lineEntered, st)
    | some k =>
      if buffSizeTrack + pidString.length > 2048 then
        some (lineEntered,
          { st with out := st.out ++
            ["\nYou have exceeded the allowable size of the buffer!\n"] })
      else
        variableExpansionLoop pidString fuel (charPtr + k)
          (buffSizeTrack + pidString.length)
          (lineEntered.take (charPtr + k) ++ pidString ++ lineEntered.drop (charPtr + k + 2))
          st

/-- The function `variableExpansion(lineEntered, numCharsEntered)` in a shell
whose pid is `shellPid`: the line, `*numCharsEntered` and the state afterwards
(`none`: the iteration bound of the model was reached). -/
def variableExpansion (shellPid : Int) (lineEntered : List Char) (numCharsEntered : Int)
    (st : Shell) : Option (List Char × Int × Shell) :=
  match strstrDollars lineEntered with
  | none => some (lineEntered, numCharsEntered, st)
  | some _ =>
    match variableExpansionLoop (fmtInt shellPid).data (lineEntered.length + 1) 0
        lineEntered.length lineEntered st with
    | none => none
    | some (line1, st1) => some (line1, (line1.length : Int) - 1, st1)

/-- The spec's reading of the expansion: every occurrence of "$$", found left
to right without overlap, replaced by the digits of the pid. -/
def expandAll (pidString : List Char) : List Char → List Char
  | [] => []
  | [c] => [c]
  | c :: d :: rest =>
    if c = '$' ∧ d = '$' then pidString ++ expandAll pidString rest
    else c :: expandAll pidString (d :: rest)

/-! ## `printShellPrompt` -/

/-- The handler of the record `terminateFgChild` that `printShellPrompt`
builds. -/
def terminateFgChild : Disposition := Disposition.SIG_DFL

/-- The handler of the record `ignoreSIGTSTP` that `printShellPrompt` builds. -/
def ignoreSIGTSTP : Disposition := Disposition.SIG_IGN

/-- The two `sigaction` calls at the start of `printShellPrompt`: SIGINT gets
the record `ignoreSIGINT` (handler `SIG_IGN`), SIGTSTP the record
`SIGTSTP_action` (handler `catchSIGTSTP`). -/
def installSignals (st : Shell) : Shell :=
  { st with sigint := Disposition.SIG_IGN, sigtstp := Disposition.catchSIGTSTP }

/-- What the environment supplies during one pass of the loop of
`printShellPrompt`: the answers to the probes of `checkBackgroundStatus`, the
line `getline` delivers, the pid of the shell, and the answers for the command
the line may start. -/
structure Round where
  probe : Nat → WaitResult
  line : List Char
  shellPid : Int
  env : Env
  home : Option String
  chdirOk : Bool

/-- One pass of the `do ... while` body of `printShellPrompt`, `getline` having
delivered `r.line` (end of input, where `getline` returns -1, is not part of
the model).  The test for "$$" that guards the call of `variableExpansion` is
the one the function starts with.  When no command is run the token array of
the result is empty. -/
def promptRound (r : Round) (st : Shell) : Flow (Tokens × Shell) :=
  let st1 := checkBackgroundStatus r.probe { st with askInput := true }
  let st2 := { st1 with out := st1.out ++ [":"] }
  let numArgs := numArguments r.line
  let st3 := checkEmptyLine r.line st2
  match variableExpansion r.shellPid r.line (r.line.length : Int) st3 with
  | none => Flow.outOfFuel
  | some (line1, numCharsEntered, st4) =>
    let st5 :=
      if numCharsEntered > 2048 ∨ numArgs > 512 ∨ line1.head? = some '#' then
        { st4 with askInput := true }
      else st4
    let lastIndex := numArgs
    let line2 := line1.takeWhile (fun c => c != '\n')
    if st5.askInput = false then
      match tokenizeString line2 with
      | none => Flow.undefined
      | some commandLine =>
        builtInFunctions r.env r.home r.chdirOk commandLine lastIndex
          terminateFgChild ignoreSIGTSTP st5
    else Flow.returned ([], st5)

/-- The loop of `printShellPrompt` over the rounds supplied (when they are
used up the result is `outOfFuel`). -/
def promptLoop : List Round → Shell → Flow (Tokens × Shell)
  | [], _ => Flow.outOfFuel
  | r :: rest, st =>
    match promptRound r st with
    | Flow.returned (commandLine, st1) =>
      if st1.askInput = true then promptLoop rest st1
      else Flow.returned (commandLine, st1)
    | other => other

/-- The function `printShellPrompt`. -/
def printShellPrompt (rounds : List Round) (st : Shell) : Flow (Tokens × Shell) :=
  promptLoop rounds (installSignals st)

/-! ## Vocabulary for redirection -/

/-- A redirection marker: the token ">" or the token "<". -/
def isMarker (tok : String) : Bool := decide (tok = ">") || decide (tok = "<")

/-- What the loop of `ioRedirect` leaves in the place of a token it has passed
with success: NULL for a marker, the token otherwise. -/
def nullMarker (tok : String) : Option String :=
  if isMarker tok = true then none else some tok

/-- The spec's reading of the argument vector: every marker and the token
following it removed, every other token kept in order. -/
def removeRedirections : List String → List String
  | [] => []
  | [tok] => if isMarker tok = true then [] else [tok]
  | tok :: next :: rest =>
    if isMarker tok = true then removeRedirections rest
    else tok :: removeRedirections (next :: rest)

/-- The list consists of pairs of a marker and the token following it. -/
def onlyRedirections : List String → Bool
  | [] => true
  | [_] => false
  | tok :: _ :: rest => isMarker tok && onlyRedirections rest

/-- The tokens before the first marker. -/
def beforeFirstMarker (toks : List String) : List String :=
  toks.takeWhile (fun tok => !isMarker tok)

/-- No marker is the last token: each marker is followed by a token. -/
def MarkersFollowed (toks : List String) : Prop :=
  ∀ tok, toks.getLast? = some tok → isMarker tok = false

/-- The argument vector of an `execvp` that replaced the image. -/
def Flow.argv? {α : Type} : Flow α → Option (List String)
  | Flow.replaced _ argv _ => some argv
  | _ => none

/-- The same outcome with the token array rewritten by `f`. -/
def Flow.mapTokens (f : Tokens → Tokens) : Flow (Tokens × Shell) → Flow (Tokens × Shell)
  | Flow.returned (cl, st) => Flow.returned (f cl, st)
  | Flow.exited code (cl, st) => Flow.exited code (f cl, st)
  | Flow.replaced file argv (cl, st) => Flow.replaced file argv (f cl, st)
  | Flow.undefined => Flow.undefined
  | Flow.outOfFuel => Flow.outOfFuel

/-- The loop of `ioRedirect` told on the part of the array from the current
index on (a device for the proofs: `ioRedirectLoop_eq_ioScan` shows that the
loop computes it). -/
def ioScan (openOk : Nat → Bool) : Tokens → Shell → Flow (Tokens × Shell)
  | [], _ => Flow.undefined
  | none :: rest, st => Flow.returned (none :: rest, st)
  | some tok :: rest, st =>
    if tok = ">" then
      match rest.head? with
      | none => Flow.undefined
      | some next =>
        match sysOpen openOk next OpenFlags.O_WRONLY_CREAT_TRUNC st with
        | (none, st1) =>
          Flow.exited 1
            (some tok :: rest, perror "ERROR: open() failed. Cannot output to file" st1)
        | (some outputFile, st1) =>
          (ioScan openOk rest { st1 with fd1 := outputFile }).mapTokens (fun l => none :: l)
    else if tok = "<" then
      match rest.head? with
      | none => Flow.undefined
      | some next =>
        match sysOpen openOk next OpenFlags.O_RDONLY st with
        | (none, st1) =>
          Flow.exited 1
            (some tok :: rest, perror "ERROR: open() failed. Cannot input to file" st1)
        | (some inputFile, st1) =>
          (ioScan openOk rest { st1 with fd0 := inputFile }).mapTokens (fun l => none :: l)
    else
      (ioScan openOk rest st).mapTokens (fun l => some tok :: l)

/-- Standard output once the loop of `ioRedirect` has passed `toks` with
success, starting from the binding `b`. -/
def outTarget : List String → Binding → Binding
  | [], b => b
  | tok :: rest, b =>
    if tok = ">" then
      match rest.head? with
      | some next => outTarget rest (Binding.file next OpenFlags.O_WRONLY_CREAT_TRUNC)
      | none => b
    else outTarget rest b

/-- Standard input once the loop of `ioRedirect` has passed `toks` with
success, starting from the binding `b`. -/
def inTarget : List String → Binding → Binding
  | [], b => b
  | tok :: rest, b =>
    if tok = ">" then inTarget rest b
    else if tok = "<" then
      match rest.head? with
      | some next => inTarget rest (Binding.file next OpenFlags.O_RDONLY)
      | none => b
    else inTarget rest b

/-- Every call of the list obtained a descriptor. -/
def AllOk (calls : List OpenCall) : Prop := ∀ c ∈ calls, c.ok = true

/-- The two diagnostics of `ioRedirect`. -/
def outputDiag : String := "ERROR: open() failed. Cannot output to file"

/-- The diagnostic of `ioRedirect` for a file that cannot be read. -/
def inputDiag : String := "ERROR: open() failed. Cannot input to file"

/-- The diagnostic of `execError`. -/
def execDiag : String := "ERROR: the command you entered does not exist"

/-- The two ways redirection over the tokens `toks` (followed by NULL and
`tail`) can end, seen from the state `st` with the bindings `in0` and `out0`
in force before the first token.  Either it returns: all calls of `open`
succeeded, every marker is NULL, the bindings are those of the last markers.
Or the process exits with status 1 at a failing `open`, the last call made:
one diagnostic is added, and the tokens from some index `k` on are untouched.
The failing call was given NULL (a marker is the last token) or was refused by
the environment. -/
def IoOutcome (openOk : Nat → Bool) (toks : List String) (tail : Tokens) (st : Shell)
    (in0 out0 : Binding) (r : Flow (Tokens × Shell)) : Prop :=
  (∃ calls, AllOk calls ∧
    r = Flow.returned (toks.map nullMarker ++ none :: tail,
      { st with
        fd0 := inTarget toks in0, fd1 := outTarget toks out0,
        opened := st.opened ++ calls })) ∨
  (∃ k calls failed msg b0 b1, k ≤ toks.length ∧ AllOk calls ∧ failed.ok = false ∧
    (msg = outputDiag ∨ msg = inputDiag) ∧
    ((failed.path = none ∧ ∃ tok, toks.getLast? = some tok ∧ isMarker tok = true) ∨
      openOk (st.opened ++ calls).length = false) ∧
    r = Flow.exited 1
      ((toks.take k).map nullMarker ++ (toks.drop k).map some ++ none :: tail,
        perror msg
          { st with fd0 := b0, fd1 := b1, opened := st.opened ++ calls ++ [failed] }))

/-- The three ways `executeCommand` can end in a child entered in state `st`
with the tokens `toks` (followed by NULL and `tail`) and program name `cmd`.
First, the image is replaced: `execvp` succeeded, all calls of `open`
succeeded, no diagnostic.  Second, the process exits with status 1 at a
failing `open`, which is the last call of `open` made: one diagnostic of
`ioRedirect` is added and the tokens from some index `k` on are untouched.
Third, the process exits with status 1 because `execvp` failed: all calls of
`open` succeeded and the diagnostic of `execError` is added.  Apart from the
two descriptors, the log of `open` calls and the diagnostics, the state is
`st`. -/
def ChildEnds (execOk : Bool) (cmd : String) (toks : List String) (tail : Tokens)
    (st : Shell) (r : Flow (Tokens × Shell)) : Prop :=
  (execOk = true ∧ ∃ calls commandLine1 b0 b1, AllOk calls ∧
    r = Flow.replaced cmd (beforeFirstMarker toks)
      (commandLine1, { st with fd0 := b0, fd1 := b1, opened := st.opened ++ calls })) ∨
  (∃ k calls failed msg b0 b1, k ≤ toks.length ∧ AllOk calls ∧ failed.ok = false ∧
    (msg = outputDiag ∨ msg = inputDiag) ∧
    r = Flow.exited 1
      ((toks.take k).map nullMarker ++ (toks.drop k).map some ++ none :: tail,
        perror msg
          { st with fd0 := b0, fd1 := b1, opened := st.opened ++ calls ++ [failed] })) ∨
  (execOk = false ∧ ∃ calls commandLine1 b0 b1, AllOk calls ∧
    r = Flow.exited 1
      (commandLine1,
        perror execDiag { st with fd0 := b0, fd1 := b1, opened := st.opened ++ calls }))

/-- The state of the child when `createFork` calls `executeCommand`: SIGINT
set from `terminateFgChild` for a foreground child, SIGTSTP set from
`ignoreSIGTSTP`. -/
def childState (terminateFgChild ignoreSIGTSTP : Disposition) (isBackground : Bool)
    (st : Shell) : Shell :=
  { (if isBackground = false then { st with sigint := terminateFgChild } else st) with
    sigtstp := ignoreSIGTSTP }

/-- What `case 0` of `createFork` falls into, having no `break`: if
`executeCommand` returned, the `default:` arm. -/
def fallThrough (env : Env) (isBackground : Bool) :
    Flow (Tokens × Shell) → Flow (Tokens × Shell)
  | Flow.returned (commandLine2, st4) =>
    createForkParent env env.forkResult isBackground commandLine2 st4
  | other => other

/-- The state in which one pass of the loop of `printShellPrompt` reaches the
call of `variableExpansion`: after `askInput = true`, `checkBackgroundStatus`,
the prompt and `checkEmptyLine`. -/
def beforeExpansion (r : Round) (st : Shell) : Shell :=
  checkEmptyLine r.line
    { checkBackgroundStatus r.probe { st with askInput := true } with
      out := (checkBackgroundStatus r.probe { st with askInput := true }).out ++ [":"] }

/-- What the loop of `printShellPrompt` does with the result of one pass: on a
return it tests `askInput` and goes on with the remaining rounds or returns;
every other end of the pass ends the loop. -/
def afterRound (rest : List Round) : Flow (Tokens × Shell) → Flow (Tokens × Shell)
  | Flow.returned (commandLine, st1) =>
    if st1.askInput = true then promptLoop rest st1 else Flow.returned (commandLine, st1)
  | other => other

/-- The value of `childExitMethod` after a `waitpid` call with the given
answer, `old` being its value before. -/
def storedStatus (answer : WaitResult) (old : Int) : Int :=
  match answer with
  | WaitResult.reaped status => status
  | _ => old

/-- The state in which a piece of code ended, when it returned or exited. -/
def Flow.state? : Flow (Tokens × Shell) → Option Shell
  | Flow.returned (_, st) => some st
  | Flow.exited _ (_, st) => some st
  | _ => none

/-! ## Vocabulary for the job table -/

/-- Whether a `waitpid` answer collects a child. -/
def isReaped : WaitResult → Bool
  | WaitResult.reaped _ => true
  | _ => false

/-- The status stored by a `waitpid` answer that collects a child. -/
def statusOf : WaitResult → Int
  | WaitResult.reaped status => status
  | _ => 0

/-- Slot `i` holds a pid (a non-zero entry). -/
def tracked (pidArray : List Int) (i : Nat) : Bool := decide (pidArray.getD i 0 ≠ 0)

/-- Slot `i` holds a pid and the probe issued for it collects the child. -/
def reapedAt (probe : Nat → WaitResult) (pidArray : List Int) (i : Nat) : Bool :=
  tracked pidArray i && isReaped (probe i)

/-- The completion line printed for a collected pid: the signal number after a
termination by signal, and otherwise the wait status as stored. -/
def completionLine (pid status : Int) : String :=
  if WIFSIGNALED status = true then
    "background pid " ++ fmtInt pid ++ " is done: terminated by signal: " ++
      fmtInt (WTERMSIG status) ++ "\n"
  else
    "background pid " ++ fmtInt pid ++ " is done: exit value: " ++ fmtInt status ++ "\n"

/-- The lines one run of `checkBackgroundStatus` is to print: one per collected
slot below `n`, in slot order. -/
def completionLines (probe : Nat → WaitResult) (pidArray : List Int) (n : Nat) :
    List String :=
  ((List.range n).filter (reapedAt probe pidArray)).map
    (fun i => completionLine (pidArray.getD i 0) (statusOf (probe i)))

/-- The pids one run of `checkBackgroundStatus` is to probe: the non-zero
entries of the slots below `n`, in slot order. -/
def probedPids (pidArray : List Int) (n : Nat) : List Int :=
  ((List.range n).filter (tracked pidArray)).map (fun i => pidArray.getD i 0)

/-- The pids one run of `checkBackgroundStatus` reports: the entries of the
collected slots below `n`, in slot order. -/
def reportedPids (probe : Nat → WaitResult) (pidArray : List Int) (n : Nat) : List Int :=
  ((List.range n).filter (reapedAt probe pidArray)).map (fun i => pidArray.getD i 0)

/-- No pid occupies two of the hundred slots. -/
def DistinctPids (pidArray : List Int) : Prop :=
  ∀ i j, i < 100 → j < 100 → i ≠ j → pidArray.getD i 0 ≠ 0 →
    pidArray.getD i 0 ≠ pidArray.getD j 0

/-- Every status a probe delivers is a normal exit or a termination by signal
(`waitpid` without `WUNTRACED` or `WCONTINUED` reports nothing else). -/
def ValidProbe (probe : Nat → WaitResult) : Prop :=
  ∀ i status, probe i = WaitResult.reaped status →
    WIFEXITED status = true ∨ WIFSIGNALED status = true

/-! ## Sequences of job-table operations -/

/-- An operation on the job table: a background launch (`fork` returns `pid`,
the immediate probe answers `answer`), a run of `checkBackgroundStatus` with
the given probe answers, or a run of `killBackgroundProcesses`. -/
inductive JobOp where
  | launch (pid : Int) (answer : WaitResult)
  | reap (probe : Nat → WaitResult)
  | killAll

/-- The answers in the parent of a background launch. -/
def backgroundEnv (pid : Int) (answer : WaitResult) : Env where
  forkResult := pid
  openOk := fun _ => true
  execOk := true
  blockOk := true
  unblockOk := true
  waitFg := WaitResult.failed
  waitBg := answer

/-- One operation on the state of the shell.  A launch is `createFork` on the
tokens of `sleep &`; the result is `none` when `createFork` does not return. -/
def runJobOp : JobOp → Shell → Option Shell
  | JobOp.launch pid answer, st =>
    match createFork (backgroundEnv pid answer) [some "sleep", some "&", none] 1
        terminateFgChild ignoreSIGTSTP st with
    | Flow.returned (_, st1) => some st1
    | _ => none
  | JobOp.reap probe, st => some (checkBackgroundStatus probe st)
  | JobOp.killAll, st => some (killBackgroundProcesses st)

/-- A sequence of operations, from left to right. -/
def runJobOps : List JobOp → Shell → Option Shell
  | [], st => some st
  | op :: ops, st =>
    match runJobOp op st with
    | some st1 => runJobOps ops st1
    | none => none

/-- The number of launches in a sequence of operations. -/
def launches : List JobOp → Nat
  | [] => 0
  | JobOp.launch _ _ :: ops => launches ops + 1
  | _ :: ops => launches ops

/-- Every launch of the sequence got a pid `> 0` from `fork`. -/
def PositivePids : List JobOp → Prop
  | [] => True
  | JobOp.launch pid _ :: ops => 0 < pid ∧ PositivePids ops
  | _ :: ops => PositivePids ops

/-- The sequence in which, `n` times, one job is launched (pid 1234, still
running at the immediate probe) and then collected by `checkBackgroundStatus`
(status 0): never more than one job is tracked. -/
def churn : Nat → List JobOp
  | 0 => []
  | n + 1 =>
    JobOp.launch 1234 WaitResult.pending :: JobOp.reap (fun _ => WaitResult.reaped 0) :: churn n

/-! ## Concrete inputs used below -/

/-- A job table with the single background job 1234 in slot 0, the last
foreground command having exited with code 0. -/
def oneJob : Shell :=
  { Shell.initial with
    pidArray := (1234 : Int) :: List.replicate 99 0, pidIndex := 1, childExitMethod := 0 }

/-- Probe answers: the job of slot 0 has ended with wait status 256 (a normal
exit with code 1), nothing else is collected. -/
def exitedOne : Nat → WaitResult :=
  fun i => if i = 0 then WaitResult.reaped 256 else WaitResult.pending

/-- Answers for a background launch in the parent: `fork` returns 1234 and the
immediate `WNOHANG` probe already collects the child, with wait status 256. -/
def quickChild : Env where
  forkResult := 1234
  openOk := fun _ => true
  execOk := true
  blockOk := true
  unblockOk := true
  waitFg := WaitResult.failed
  waitBg := WaitResult.reaped 256

/-- Answers for a foreground launch in the parent: `fork` returns 1234, both
`sigprocmask` calls succeed and the blocking `waitpid` collects the child,
killed by signal 2. -/
def interruptedChild : Env where
  forkResult := 1234
  openOk := fun _ => true
  execOk := true
  blockOk := true
  unblockOk := true
  waitFg := WaitResult.reaped 2
  waitBg := WaitResult.pending

/-- A job table in which pid 5 occupies slots 0 and 1. -/
def samePidTwice : Shell :=
  { Shell.initial with pidArray := (5 : Int) :: 5 :: List.replicate 98 0, pidIndex := 2 }

/-- Probe answers: the call for slot 0 collects the child (status 0), every
other call fails (no such child). -/
def firstCollects : Nat → WaitResult :=
  fun i => if i = 0 then WaitResult.reaped 0 else WaitResult.failed

/-- Probe answers: every call fails (no such child). -/
def noneLeft : Nat → WaitResult := fun _ => WaitResult.failed

/-- A job table with the two background jobs 1234 and 1250. -/
def twoJobs : Shell :=
  { Shell.initial with
    pidArray := (1234 : Int) :: 1250 :: List.replicate 98 0, pidIndex := 2 }

/-- The environment in which every call of `open` succeeds. -/
def allOpen : Nat → Bool := fun _ => true

/-- Answers in the child (`fork` returns 0) in which the second call of `open`
is refused and `execvp` would succeed. -/
def secondOpenRefused : Env where
  forkResult := 0
  openOk := fun n => decide (n ≠ 1)
  execOk := true
  blockOk := true
  unblockOk := true
  waitFg := WaitResult.failed
  waitBg := WaitResult.failed

/-- Answers for a foreground launch in the parent: `fork` returns 1234, SIGTSTP
is blocked with success, and the blocking `waitpid` returns -1. -/
def waitFails : Env where
  forkResult := 1234
  openOk := fun _ => true
  execOk := true
  blockOk := true
  unblockOk := true
  waitFg := WaitResult.failed
  waitBg := WaitResult.pending

/-- Answers for a background launch in the parent: `fork` returns 1234 and the
immediate probe finds the child still running. -/
def stillRunning : Env where
  forkResult := 1234
  openOk := fun _ => true
  execOk := true
  blockOk := true
  unblockOk := true
  waitFg := WaitResult.failed
  waitBg := WaitResult.pending

/-- Answers in the child (`fork` returns 0) in which everything succeeds. -/
def inChild : Env where
  forkResult := 0
  openOk := fun _ => true
  execOk := true
  blockOk := true
  unblockOk := true
  waitFg := WaitResult.failed
  waitBg := WaitResult.failed

/-- A pass of the prompt loop in which the user types `ls`, two spaces, `-l`. -/
def doubleSpace : Round where
  probe := noneLeft
  line := "ls  -l\n".data
  shellPid := 12345
  env := interruptedChild
  home := none
  chdirOk := true

/-- A pass of the prompt loop, seen in the child, in which the user types the
redirection `> out` and no program name. -/
def redirectionOnly : Round where
  probe := noneLeft
  line := "> out\n".data
  shellPid := 12345
  env := inChild
  home := none
  chdirOk := true

/-- A pass of the prompt loop, seen in the child, in which the user types a
lone `&`. -/
def ampersandOnly : Round where
  probe := noneLeft
  line := "&\n".data
  shellPid := 12345
  env := inChild
  home := none
  chdirOk := true

/-- A pass of the prompt loop, seen in the child, in which the user types
`sleep 5 &`. -/
def sleepInBackground : Round where
  probe := noneLeft
  line := "sleep 5 &\n".data
  shellPid := 12345
  env := inChild
  home := none
  chdirOk := true

/-- A line of 2044 characters: "$$", then 2041 times the letter a, then the
newline. -/
def longLine : List Char := '$' :: '$' :: (List.replicate 2041 'a' ++ ['\n'])

/-! ## Facts about the wait-status macros -/

theorem WTERMSIG_range (s : Int) : 0 ≤ WTERMSIG s ∧ WTERMSIG s ≤ 127 := by
  unfold WTERMSIG; omega

theorem WEXITSTATUS_range (s : Int) : 0 ≤ WEXITSTATUS s ∧ WEXITSTATUS s ≤ 255 := by
  unfold WEXITSTATUS; omega

theorem WIFSIGNALED_iff (s : Int) :
    WIFSIGNALED s = true ↔ 1 ≤ WTERMSIG s ∧ WTERMSIG s ≤ 126 := by
  have h := WTERMSIG_range s
  unfold WIFSIGNALED toSignedChar
  simp only [decide_eq_true_eq]
  split_ifs <;> omega

theorem WIFEXITED_iff (s : Int) : WIFEXITED s = true ↔ WTERMSIG s = 0 := by
  simp [WIFEXITED]

theorem WIFSIGNALED_of_WIFEXITED (s : Int) (h : WIFEXITED s = true) :
    WIFSIGNALED s = false := by
  have h1 := (WIFEXITED_iff s).1 h
  cases hs : WIFSIGNALED s with
  | false => rfl
  | true => have := (WIFSIGNALED_iff s).1 hs; omega

/-! ## The value of `isBackgroundProcess` at a token -/

theorem isBackgroundProcess_eq (commandLine : Tokens) (lastIndex : Int) (tok : String)
    (st : Shell) (hidx : 0 ≤ lastIndex)
    (htok : commandLine[lastIndex.toNat]? = some (some tok)) :
    isBackgroundProcess commandLine lastIndex st =
      some (decide (tok = "&") && !st.isForegroundOnly,
        if tok = "&" then commandLine.set lastIndex.toNat none else commandLine, st) := by
  have hneg : ¬ lastIndex < 0 := by omega
  by_cases hamp : tok = "&"
  · cases hfg : st.isForegroundOnly <;> simp [isBackgroundProcess, hneg, htok, hamp, hfg]
  · simp [isBackgroundProcess, hneg, htok, hamp]

/-! ## C1: `isBackgroundProcess` -/

/-- C1. When `lastIndex` points at a token `tok`, `isBackgroundProcess` is
defined, returns true exactly when `tok` is "&" and `isForegroundOnly` is
false, replaces the token by NULL whenever it is "&" (in either mode), leaves
every other entry of the array as it was, and returns the globals unchanged. -/
theorem isBackgroundProcess_spec (commandLine : Tokens) (lastIndex : Int) (tok : String)
    (st : Shell) (hidx : 0 ≤ lastIndex)
    (htok : commandLine[lastIndex.toNat]? = some (some tok)) :
    ∃ flag commandLine1,
      isBackgroundProcess commandLine lastIndex st = some (flag, commandLine1, st) ∧
      (flag = true ↔ tok = "&" ∧ st.isForegroundOnly = false) ∧
      (tok = "&" → commandLine1[lastIndex.toNat]? = some none) ∧
      (tok ≠ "&" → commandLine1 = commandLine) ∧
      commandLine1.length = commandLine.length ∧
      (∀ j : Nat, j ≠ lastIndex.toNat → commandLine1[j]? = commandLine[j]?) := by
  have hlt : lastIndex.toNat < commandLine.length := by
    rcases Nat.lt_or_ge lastIndex.toNat commandLine.length with h | h
    · exact h
    · rw [List.getElem?_eq_none h] at htok; cases htok
  have hneg : ¬ lastIndex < 0 := by omega
  by_cases hamp : tok = "&"
  · cases hfg : st.isForegroundOnly with
    | true =>
      refine ⟨false, commandLine.set lastIndex.toNat none, ?_, ?_, ?_, ?_, ?_, ?_⟩
      · simp [isBackgroundProcess, hneg, htok, hamp, hfg]
      · simp
      · intro _; simp [hlt]
      · intro h; exact absurd hamp h
      · simp
      · intro j hj; simp [List.getElem?_set, Ne.symm hj]
    | false =>
      refine ⟨true, commandLine.set lastIndex.toNat none, ?_, ?_, ?_, ?_, ?_, ?_⟩
      · simp [isBackgroundProcess, hneg, htok, hamp, hfg]
      · simp [hamp]
      · intro _; simp [hlt]
      · intro h; exact absurd hamp h
      · simp
      · intro j hj; simp [List.getElem?_set, Ne.symm hj]
  · refine ⟨false, commandLine, ?_, ?_, ?_, ?_, ?_, ?_⟩
    · simp [isBackgroundProcess, hneg, htok, hamp]
    · simp [hamp]
    · intro h; exact absurd h hamp
    · intro _; rfl
    · rfl
    · intro j _; rfl

/-- Witness for C1 on the tokens of `sleep 5 &` in normal mode. -/
theorem isBackgroundProcess_spec_witness :
    ∃ flag commandLine1,
      isBackgroundProcess [some "sleep", some "5", some "&", none] 2 Shell.initial
        = some (flag, commandLine1, Shell.initial) ∧
      (flag = true ↔ "&" = "&" ∧ Shell.initial.isForegroundOnly = false) ∧
      ("&" = "&" → commandLine1[(2 : Int).toNat]? = some none) ∧
      ("&" ≠ "&" → commandLine1 = [some "sleep", some "5", some "&", none]) ∧
      commandLine1.length = [some "sleep", some "5", some "&", none].length ∧
      (∀ j : Nat, j ≠ (2 : Int).toNat →
        commandLine1[j]? = [some "sleep", some "5", some "&", none][j]?) :=
  isBackgroundProcess_spec [some "sleep", some "5", some "&", none] 2 "&" Shell.initial
    (by decide) (by decide)

/-! ## C2: `catchSIGTSTP` -/

/-- C2. Two consecutive runs of `catchSIGTSTP` restore `isForegroundOnly`,
append exactly the two complete messages in the order of the transition table
(each ending in one newline, 49 and 29 bytes long), and change nothing else. -/
theorem catchSIGTSTP_twice (st : Shell) :
    catchSIGTSTP (catchSIGTSTP st) =
      { st with out := st.out ++
          (if st.isForegroundOnly = false then
            ["Entering foreground-only mode (& is now ignored)\n",
             "Exiting foreground-only mode\n"]
           else
            ["Exiting foreground-only mode\n",
             "Entering foreground-only mode (& is now ignored)\n"]) } ∧
    (catchSIGTSTP (catchSIGTSTP st)).isForegroundOnly = st.isForegroundOnly ∧
    String.utf8ByteSize "Entering foreground-only mode (& is now ignored)\n" = 49 ∧
    String.utf8ByteSize "Exiting foreground-only mode\n" = 29 := by
  have e1 : writeBytes "Entering foreground-only mode (& is now ignored)\n" 49
      = "Entering foreground-only mode (& is now ignored)\n" := by rfl
  have e2 : writeBytes "Exiting foreground-only mode\n" 29
      = "Exiting foreground-only mode\n" := by rfl
  refine ⟨?_, ?_, by rfl, by rfl⟩
  · cases h : st.isForegroundOnly <;> simp [catchSIGTSTP, h, e1, e2]
  · cases h : st.isForegroundOnly <;> simp [catchSIGTSTP, h]

/-! ## C6: `getStatus` -/

/-- C6. For every stored status `getStatus` appends exactly one line to the
output and changes nothing else: the line is "terminated by signal n" with
`n = WTERMSIG` when the status is a termination by signal, and "exit value c"
with `c = WEXITSTATUS`, between 0 and 255, when it is a normal exit. -/
theorem getStatus_spec (st : Shell) :
    (∃ line, getStatus st = { st with out := st.out ++ [line] }) ∧
    (WIFSIGNALED st.childExitMethod = true →
      getStatus st = { st with out := st.out ++
        ["terminated by signal " ++ fmtInt (WTERMSIG st.childExitMethod) ++ "\n"] }) ∧
    (WIFEXITED st.childExitMethod = true →
      getStatus st = { st with out := st.out ++
        ["exit value " ++ fmtInt (WEXITSTATUS st.childExitMethod) ++ "\n"] } ∧
      0 ≤ WEXITSTATUS st.childExitMethod ∧ WEXITSTATUS st.childExitMethod ≤ 255) := by
  refine ⟨?_, ?_, ?_⟩
  · unfold getStatus
    split_ifs
    · exact ⟨_, rfl⟩
    · exact ⟨_, rfl⟩
  · intro h; simp [getStatus, h]
  · intro h
    have h2 := WIFSIGNALED_of_WIFEXITED _ h
    have h3 := WEXITSTATUS_range st.childExitMethod
    refine ⟨?_, h3.1, h3.2⟩
    simp [getStatus, h2]

/-- Witness for C6: after a child killed by signal 2 the line is "terminated by
signal 2"; after a child that exited with code 1 (status 256) it is "exit value 1". -/
theorem getStatus_spec_witness :
    (getStatus { Shell.initial with childExitMethod := 2 }).out
      = ["terminated by signal 2\n"] ∧
    (getStatus { Shell.initial with childExitMethod := 256 }).out = ["exit value 1\n"] :=
  ⟨by rw [(getStatus_spec { Shell.initial with childExitMethod := 2 }).2.1 (by decide)]; rfl,
   by rw [((getStatus_spec { Shell.initial with childExitMethod := 256 }).2.2 (by decide)).1]; rfl⟩

/-! ## C7: the foreground arm of `createFork` -/

/-- C7. In the parent (`fork` returned a pid `> 0`) of an effective-foreground
launch, once SIGTSTP is blocked and the blocking `waitpid` has collected the
child with status `s`: the stored status is `s`, the job table and `pidIndex`
are untouched, exactly the spawned pid was waited for, and, the unblocking
having succeeded, `createFork` returns having printed "terminated by signal n"
if `s` is a termination by signal and nothing otherwise.  (If unblocking fails
the shell exits with status 1 and nothing is printed on standard output.) -/
theorem createFork_foreground (env : Env) (commandLine : Tokens) (lastIndex : Int)
    (terminateFgChild ignoreSIGTSTP : Disposition) (st : Shell) (tok : String) (s : Int)
    (hidx : 0 ≤ lastIndex)
    (htok : commandLine[lastIndex.toNat]? = some (some tok))
    (hfg : tok = "&" → st.isForegroundOnly = true)
    (hpid : 0 < env.forkResult)
    (hblock : env.blockOk = true)
    (hwait : env.waitFg = WaitResult.reaped s) :
    ∃ commandLine1 st1,
      createFork env commandLine lastIndex terminateFgChild ignoreSIGTSTP st =
        (if env.unblockOk = true then Flow.returned (commandLine1, st1)
         else Flow.exited 1 (commandLine1, st1)) ∧
      st1.childExitMethod = s ∧
      st1.pidArray = st.pidArray ∧ st1.pidIndex = st.pidIndex ∧
      st1.waited = st.waited ++ [env.forkResult] ∧
      (env.unblockOk = true → WIFSIGNALED s = true →
        st1.out = st.out ++ ["terminated by signal " ++ fmtInt (WTERMSIG s) ++ "\n"]) ∧
      (env.unblockOk = true → WIFSIGNALED s = false → st1.out = st.out) ∧
      (env.unblockOk = false → st1.out = st.out) := by
  have hbg : (decide (tok = "&") && !st.isForegroundOnly) = false := by
    by_cases hamp : tok = "&"
    · simp [hfg hamp]
    · simp [hamp]
  have h1 : env.forkResult ≠ -1 := by omega
  have h0 : env.forkResult ≠ 0 := by omega
  rw [createFork, isBackgroundProcess_eq commandLine lastIndex tok st hidx htok]
  simp only [hbg, h1, h0, if_false, createForkParent, hblock, hwait, waitpid]
  cases hun : env.unblockOk with
  | false =>
    refine ⟨(if tok = "&" then commandLine.set lastIndex.toNat none else commandLine),
      perror "ERROR: Unblocking SIGTSTP has failed!"
      { st with tstpBlocked := true, childExitMethod := s,
                waited := st.waited ++ [env.forkResult] }, ?_, ?_⟩
    · simp
    · simp [perror]
  | true =>
    cases hsig : WIFSIGNALED s with
    | true =>
      refine ⟨(if tok = "&" then commandLine.set lastIndex.toNat none else commandLine),
        { st with
          tstpBlocked := false, childExitMethod := s, waited := st.waited ++ [env.forkResult],
          out := st.out ++ ["terminated by signal " ++ fmtInt (WTERMSIG s) ++ "\n"] },
        ?_, ?_⟩
      · simp
      · simp
    | false =>
      refine ⟨(if tok = "&" then commandLine.set lastIndex.toNat none else commandLine),
        { st with
          tstpBlocked := false, childExitMethod := s, waited := st.waited ++ [env.forkResult] },
        ?_, ?_⟩
      · simp
      · simp

/-- Witness for C7: `sleep 5` in the foreground, killed by signal 2. -/
theorem createFork_foreground_witness :
    ∃ commandLine1 st1,
      createFork interruptedChild [some "sleep", some "5", none] 1
          Disposition.SIG_DFL Disposition.SIG_IGN Shell.initial =
        (if interruptedChild.unblockOk = true then Flow.returned (commandLine1, st1)
         else Flow.exited 1 (commandLine1, st1)) ∧
      st1.childExitMethod = 2 ∧
      st1.pidArray = Shell.initial.pidArray ∧ st1.pidIndex = Shell.initial.pidIndex ∧
      st1.waited = Shell.initial.waited ++ [interruptedChild.forkResult] ∧
      (interruptedChild.unblockOk = true → WIFSIGNALED 2 = true →
        st1.out = Shell.initial.out ++
          ["terminated by signal " ++ fmtInt (WTERMSIG 2) ++ "\n"]) ∧
      (interruptedChild.unblockOk = true → WIFSIGNALED 2 = false →
        st1.out = Shell.initial.out) ∧
      (interruptedChild.unblockOk = false → st1.out = Shell.initial.out) :=
  createFork_foreground interruptedChild [some "sleep", some "5", none] 1
    Disposition.SIG_DFL Disposition.SIG_IGN Shell.initial "5" 2
    (by decide) (by decide) (by decide) (by decide) (by decide) (by rfl)

/-! ## C8: who writes the stored status -/

/-- C8 (the code at a failing input).  With job 1234 tracked and the stored
status 0 of the last foreground command, a probe that collects the job with
status 256 makes `checkBackgroundStatus` overwrite `childExitMethod`: `getStatus`
printed "exit value 0" before and prints "exit value 1" after.  The background
arm of `createFork` overwrites it in the same way when its immediate probe
collects the child. -/
theorem checkBackgroundStatus_overwrites_status :
    oneJob.childExitMethod = 0 ∧
    (checkBackgroundStatus exitedOne oneJob).childExitMethod = 256 ∧
    (getStatus oneJob).out = ["exit value 0\n"] ∧
    (getStatus (checkBackgroundStatus exitedOne oneJob)).out =
      ["background pid 1234 is done: exit value: 256\n", "exit value 1\n"] ∧
    (∃ commandLine1 st1,
      createFork quickChild [some "true", some "&", none] 1
          Disposition.SIG_DFL Disposition.SIG_IGN
          { Shell.initial with childExitMethod := 0 } = Flow.returned (commandLine1, st1) ∧
      st1.childExitMethod = 256) := by
  refine ⟨by rfl, by rfl, by rfl, by rfl, ?_⟩
  exact ⟨_, _, by rfl, by rfl⟩

/-! ## C9: the number printed for a finished background job -/

/-- C9 (the code at a failing input).  Job 1234 is collected with wait status
256, a normal exit with exit code 1; the line printed carries the raw status
256, not the exit code. -/
theorem checkBackgroundStatus_prints_raw_status :
    WIFEXITED 256 = true ∧ WEXITSTATUS 256 = 1 ∧
    (checkBackgroundStatus exitedOne oneJob).out =
      ["background pid 1234 is done: exit value: 256\n"] ∧
    (checkBackgroundStatus exitedOne oneJob).out ≠
      ["background pid 1234 is done: exit value: 1\n"] := by
  refine ⟨by rfl, by rfl, by rfl, ?_⟩
  have h : (checkBackgroundStatus exitedOne oneJob).out =
      ["background pid 1234 is done: exit value: 256\n"] := by rfl
  rw [h]; decide

/-! ## C10: one run of `checkBackgroundStatus`, and a second one -/

theorem checkBackgroundStatusStep_untracked (probe : Nat → WaitResult) (t : Shell) (i : Nat)
    (h : t.pidArray.getD i 0 = 0) : checkBackgroundStatusStep probe t i = t := by
  rw [checkBackgroundStatusStep, if_neg (fun hh => hh h)]

theorem checkBackgroundStatusStep_running (probe : Nat → WaitResult) (t : Shell) (i : Nat)
    (h : t.pidArray.getD i 0 ≠ 0) (hp : isReaped (probe i) = false) :
    checkBackgroundStatusStep probe t i =
      { t with waited := t.waited ++ [t.pidArray.getD i 0] } := by
  cases hpi : probe i with
  | reaped status => rw [hpi] at hp; cases hp
  | pending => rw [checkBackgroundStatusStep, if_pos h]; simp [hpi, waitpid]
  | failed => rw [checkBackgroundStatusStep, if_pos h]; simp [hpi, waitpid]

theorem checkBackgroundStatusStep_reaped (probe : Nat → WaitResult) (hv : ValidProbe probe)
    (t : Shell) (i : Nat) (h : t.pidArray.getD i 0 ≠ 0) (hp : isReaped (probe i) = true) :
    checkBackgroundStatusStep probe t i =
      { t with
        childExitMethod := statusOf (probe i)
        waited := t.waited ++ [t.pidArray.getD i 0]
        out := t.out ++ [completionLine (t.pidArray.getD i 0) (statusOf (probe i))]
        pidArray := t.pidArray.set i 0 } := by
  cases hpi : probe i with
  | pending => rw [hpi] at hp; cases hp
  | failed => rw [hpi] at hp; cases hp
  | reaped status =>
    cases hsig : WIFSIGNALED status with
    | true =>
      rw [checkBackgroundStatusStep, if_pos h]
      simp [hpi, waitpid, statusOf, completionLine, hsig]
    | false =>
      have hex : WIFEXITED status = true := by
        rcases hv i status hpi with h1 | h1
        · exact h1
        · rw [hsig] at h1; cases h1
      rw [checkBackgroundStatusStep, if_pos h]
      simp [hpi, waitpid, statusOf, completionLine, hsig, hex]

theorem completionLines_succ (probe : Nat → WaitResult) (pidArray : List Int) (n : Nat) :
    completionLines probe pidArray (n + 1) =
      completionLines probe pidArray n ++
        (if reapedAt probe pidArray n = true then
          [completionLine (pidArray.getD n 0) (statusOf (probe n))] else []) := by
  unfold completionLines
  rw [List.range_succ, List.filter_append, List.map_append]
  cases h : reapedAt probe pidArray n <;> simp [List.filter, h]

theorem probedPids_succ (pidArray : List Int) (n : Nat) :
    probedPids pidArray (n + 1) =
      probedPids pidArray n ++ (if tracked pidArray n = true then [pidArray.getD n 0] else []) := by
  unfold probedPids
  rw [List.range_succ, List.filter_append, List.map_append]
  cases h : tracked pidArray n <;> simp [List.filter, h]

theorem getD_set_zero_self (l : List Int) (n : Nat) : (l.set n 0).getD n 0 = 0 := by
  simp only [List.getD_eq_getElem?_getD, List.getElem?_set, if_true]
  split_ifs <;> rfl

theorem getD_set_zero_other (l : List Int) (n i : Nat) (h : i ≠ n) :
    (l.set n 0).getD i 0 = l.getD i 0 := by
  simp [List.getD_eq_getElem?_getD, List.getElem?_set, Ne.symm h]

/-- The state after the first `n` iterations of the loop of
`checkBackgroundStatus`. -/
theorem checkBackgroundStatus_loop (probe : Nat → WaitResult) (hv : ValidProbe probe)
    (st : Shell) (n : Nat) :
    ∃ pa status,
      (List.range n).foldl (checkBackgroundStatusStep probe) st =
        { st with
          pidArray := pa
          childExitMethod := status
          out := st.out ++ completionLines probe st.pidArray n
          waited := st.waited ++ probedPids st.pidArray n } ∧
      pa.length = st.pidArray.length ∧
      ∀ i, pa.getD i 0 =
        if i < n ∧ reapedAt probe st.pidArray i = true then 0 else st.pidArray.getD i 0 := by
  induction n with
  | zero =>
    refine ⟨st.pidArray, st.childExitMethod, ?_, rfl, ?_⟩
    · simp [completionLines, probedPids]
    · intro i; simp
  | succ n ih =>
    obtain ⟨pa, status, hfold, hlen, hpa⟩ := ih
    rw [List.range_succ, List.foldl_append, hfold, List.foldl_cons, List.foldl_nil,
      completionLines_succ, probedPids_succ]
    have hn : pa.getD n 0 = st.pidArray.getD n 0 := by
      rw [hpa n]; exact if_neg (fun h => Nat.lt_irrefl n h.1)
    have hsame : reapedAt probe st.pidArray n = false → ∀ i, pa.getD i 0 =
        if i < n + 1 ∧ reapedAt probe st.pidArray i = true then 0
        else st.pidArray.getD i 0 := by
      intro hre i
      rw [hpa i]
      refine if_congr ⟨fun h => ⟨by omega, h.2⟩, fun h => ⟨?_, h.2⟩⟩ rfl rfl
      rcases Nat.lt_or_ge i n with h1 | h1
      · exact h1
      · have : i = n := by omega
        rw [this, hre] at h; exact absurd h.2 (by decide)
    by_cases htr : st.pidArray.getD n 0 = 0
    · have htr1 : tracked st.pidArray n = false := by
        unfold tracked; rw [htr]; rfl
      have hre : reapedAt probe st.pidArray n = false := by
        unfold reapedAt; rw [htr1]; rfl
      rw [checkBackgroundStatusStep_untracked _ _ _ (hn.trans htr)]
      refine ⟨pa, status, ?_, hlen, hsame hre⟩
      rw [htr1, hre]; simp
    · have htr1 : tracked st.pidArray n = true := by
        unfold tracked; exact decide_eq_true htr
      cases hp : isReaped (probe n) with
      | false =>
        have hre : reapedAt probe st.pidArray n = false := by
          unfold reapedAt; rw [hp]; simp
        rw [checkBackgroundStatusStep_running _ _ _ (fun h => htr (hn.symm.trans h)) hp]
        refine ⟨pa, status, ?_, hlen, hsame hre⟩
        rw [htr1, hre]
        show _ = _
        simp only [hn, if_true, Bool.false_eq_true, if_false, List.append_nil, List.append_assoc]
      | true =>
        have hre : reapedAt probe st.pidArray n = true := by
          unfold reapedAt; rw [hp, htr1]; rfl
        rw [checkBackgroundStatusStep_reaped _ hv _ _ (fun h => htr (hn.symm.trans h)) hp]
        refine ⟨pa.set n 0, statusOf (probe n), ?_, by simp [hlen], ?_⟩
        · rw [htr1, hre]
          show _ = _
          simp only [hn, if_true, List.append_assoc]
        · intro i
          by_cases hin : i = n
          · rw [hin, getD_set_zero_self, if_pos ⟨Nat.lt_succ_self n, hre⟩]
          · rw [getD_set_zero_other _ _ _ hin, hpa i]
            exact if_congr ⟨fun h => ⟨by omega, h.2⟩, fun h => ⟨by omega, h.2⟩⟩ rfl rfl

theorem mem_probedPids (pidArray : List Int) (n : Nat) (p : Int)
    (h : p ∈ probedPids pidArray n) :
    ∃ j, j < n ∧ pidArray.getD j 0 ≠ 0 ∧ pidArray.getD j 0 = p := by
  unfold probedPids at h
  rw [List.mem_map] at h
  obtain ⟨j, hj, hjp⟩ := h
  rw [List.mem_filter, List.mem_range] at hj
  exact ⟨j, hj.1, of_decide_eq_true hj.2, hjp⟩

theorem reportedPids_subset (probe : Nat → WaitResult) (pidArray : List Int) (n : Nat)
    (p : Int) (h : p ∈ reportedPids probe pidArray n) : p ∈ probedPids pidArray n := by
  unfold reportedPids at h
  unfold probedPids
  rw [List.mem_map] at h ⊢
  obtain ⟨j, hj, hjp⟩ := h
  rw [List.mem_filter] at hj
  refine ⟨j, ?_, hjp⟩
  rw [List.mem_filter]
  refine ⟨hj.1, ?_⟩
  have h2 := hj.2
  unfold reapedAt at h2
  rw [Bool.and_eq_true] at h2
  exact h2.1

/-- C10, amended.  For a job table in which no pid occupies two slots, and
probes that deliver exit or signal statuses: after `checkBackgroundStatus` every
slot whose probe collected its pid is 0, every other slot and `pidIndex` are
unchanged, the pids probed are exactly the non-zero entries in slot order, and
one completion line was printed per collected pid, in slot order, none for the
others.  A second run probes exactly the entries left, so it neither probes nor
reports a pid collected by the first run. -/
theorem checkBackgroundStatus_reap (probe probe2 : Nat → WaitResult) (st : Shell)
    (hv : ValidProbe probe) (hv2 : ValidProbe probe2)
    (hd : DistinctPids st.pidArray) :
    (∀ i, (checkBackgroundStatus probe st).pidArray.getD i 0 =
      if i < 100 ∧ reapedAt probe st.pidArray i = true then 0 else st.pidArray.getD i 0) ∧
    (checkBackgroundStatus probe st).pidArray.length = st.pidArray.length ∧
    (checkBackgroundStatus probe st).pidIndex = st.pidIndex ∧
    (checkBackgroundStatus probe st).waited = st.waited ++ probedPids st.pidArray 100 ∧
    (checkBackgroundStatus probe st).out = st.out ++ completionLines probe st.pidArray 100 ∧
    (checkBackgroundStatus probe2 (checkBackgroundStatus probe st)).waited =
      (checkBackgroundStatus probe st).waited ++
        probedPids (checkBackgroundStatus probe st).pidArray 100 ∧
    (checkBackgroundStatus probe2 (checkBackgroundStatus probe st)).out =
      (checkBackgroundStatus probe st).out ++
        completionLines probe2 (checkBackgroundStatus probe st).pidArray 100 ∧
    (∀ i, i < 100 → reapedAt probe st.pidArray i = true →
      st.pidArray.getD i 0 ∉ probedPids (checkBackgroundStatus probe st).pidArray 100 ∧
      st.pidArray.getD i 0 ∉
        reportedPids probe2 (checkBackgroundStatus probe st).pidArray 100) := by
  obtain ⟨pa, status, h1, hlen, hpa⟩ := checkBackgroundStatus_loop probe hv st 100
  obtain ⟨pa2, status2, h2, -, -⟩ :=
    checkBackgroundStatus_loop probe2 hv2 (checkBackgroundStatus probe st) 100
  have e1 : checkBackgroundStatus probe st = _ := h1
  have e2 : checkBackgroundStatus probe2 (checkBackgroundStatus probe st) = _ := h2
  have hpa1 : (checkBackgroundStatus probe st).pidArray = pa := by rw [e1]
  have hnot : ∀ i, i < 100 → reapedAt probe st.pidArray i = true →
      st.pidArray.getD i 0 ∉ probedPids pa 100 := by
    intro i hi hre hmem
    obtain ⟨j, hj, hj0, hjp⟩ := mem_probedPids _ _ _ hmem
    have hti : st.pidArray.getD i 0 ≠ 0 := by
      unfold reapedAt at hre
      rw [Bool.and_eq_true] at hre
      exact of_decide_eq_true hre.1
    by_cases hre2 : j < 100 ∧ reapedAt probe st.pidArray j = true
    · rw [hpa j, if_pos hre2] at hj0; exact hj0 rfl
    · rw [hpa j, if_neg hre2] at hjp
      by_cases hij : i = j
      · rw [← hij] at hre2; exact hre2 ⟨hi, hre⟩
      · exact hd i j hi hj hij hti hjp.symm
  refine ⟨?_, ?_, ?_, ?_, ?_, ?_, ?_, ?_⟩
  · rw [hpa1]; exact hpa
  · rw [hpa1]; exact hlen
  · rw [e1]
  · rw [e1]
  · rw [e1]
  · rw [e2]
  · rw [e2]
  · intro i hi hre
    rw [hpa1]
    exact ⟨hnot i hi hre, fun h => hnot i hi hre (reportedPids_subset _ _ _ _ h)⟩

theorem validProbe_exitedOne : ValidProbe exitedOne := by
  intro i status h
  unfold exitedOne at h
  split_ifs at h
  injection h with h
  subst h
  left; rfl

theorem validProbe_noneLeft : ValidProbe noneLeft := by
  intro i status h
  cases h

theorem getD_replicate_zero (n i : Nat) : (List.replicate n (0 : Int)).getD i 0 = 0 := by
  simp only [List.getD_eq_getElem?_getD, List.getElem?_replicate]
  split_ifs <;> rfl

theorem distinctPids_twoJobs : DistinctPids twoJobs.pidArray := by
  intro i j _ _ hij h0
  have hz : ∀ k, twoJobs.pidArray.getD (k + 2) 0 = 0 := fun k => getD_replicate_zero 98 k
  match i, j with
  | 0, 0 => exact absurd rfl hij
  | 0, 1 => decide
  | 0, j + 2 => rw [hz j]; decide
  | 1, 0 => decide
  | 1, 1 => exact absurd rfl hij
  | 1, j + 2 => rw [hz j]; decide
  | i + 2, _ => exact absurd (hz i) h0

/-- Witness for C10 (amended): jobs 1234 and 1250 tracked, the first collected
with status 256.  One line is printed, and the second run does not probe 1234. -/
theorem checkBackgroundStatus_reap_witness :
    ValidProbe exitedOne ∧ ValidProbe noneLeft ∧ DistinctPids twoJobs.pidArray ∧
    (checkBackgroundStatus exitedOne twoJobs).out =
      ["background pid 1234 is done: exit value: 256\n"] ∧
    (checkBackgroundStatus exitedOne twoJobs).waited = [1234, 1250] ∧
    (1234 : Int) ∉ probedPids (checkBackgroundStatus exitedOne twoJobs).pidArray 100 :=
  ⟨validProbe_exitedOne, validProbe_noneLeft, distinctPids_twoJobs,
    (checkBackgroundStatus_reap exitedOne noneLeft twoJobs validProbe_exitedOne
      validProbe_noneLeft distinctPids_twoJobs).2.2.2.2.1.trans (by rfl),
    (checkBackgroundStatus_reap exitedOne noneLeft twoJobs validProbe_exitedOne
      validProbe_noneLeft distinctPids_twoJobs).2.2.2.1.trans (by rfl),
    ((checkBackgroundStatus_reap exitedOne noneLeft twoJobs validProbe_exitedOne
      validProbe_noneLeft distinctPids_twoJobs).2.2.2.2.2.2.2 0 (by decide) (by rfl)).1⟩

/-- C10 as stated fails on a table in which pid 5 occupies two slots: the first
run collects pid 5 through slot 0 and leaves slot 1, and the second run calls
`waitpid` on pid 5 again. -/
theorem checkBackgroundStatus_same_pid_probed_again :
    reapedAt firstCollects samePidTwice.pidArray 0 = true ∧
    samePidTwice.pidArray.getD 0 0 = 5 ∧
    (checkBackgroundStatus firstCollects samePidTwice).out =
      ["background pid 5 is done: exit value: 0\n"] ∧
    (checkBackgroundStatus firstCollects samePidTwice).pidArray.getD 1 0 = 5 ∧
    (checkBackgroundStatus firstCollects samePidTwice).waited = [5, 5] ∧
    (checkBackgroundStatus noneLeft (checkBackgroundStatus firstCollects samePidTwice)).waited
      = [5, 5, 5] := by
  refine ⟨by rfl, by rfl, by rfl, by rfl, by rfl, by rfl⟩

/-! ## The loop of `ioRedirect` -/

theorem Flow.mapTokens_mapTokens (f g : Tokens → Tokens) (r : Flow (Tokens × Shell)) :
    (r.mapTokens g).mapTokens f = r.mapTokens (fun l => f (g l)) := by
  cases r with
  | returned a => cases a; rfl
  | exited code a => cases a; rfl
  | replaced file argv a => cases a; rfl
  | undefined => rfl
  | outOfFuel => rfl

theorem getElem?_append_length (pre rest : Tokens) :
    (pre ++ rest)[pre.length]? = rest.head? := by
  rw [List.getElem?_append_right (Nat.le_refl _)]
  cases rest <;> simp

theorem getElem?_append_length_succ (pre : Tokens) (x : Option String) (rest : Tokens) :
    (pre ++ x :: rest)[pre.length + 1]? = rest.head? := by
  rw [List.getElem?_append_right (Nat.le_succ _)]
  cases rest <;> simp

theorem set_append_length (pre : Tokens) (x y : Option String) (rest : Tokens) :
    (pre ++ x :: rest).set pre.length y = (pre ++ [y]) ++ rest := by
  rw [List.set_append_right _ _ (Nat.le_refl _)]
  simp

/-- The loop of `ioRedirect`, entered at index `pre.length` of `pre ++ rest`
with more iterations allowed than `rest` has entries, computes `ioScan` on
`rest`. -/
theorem ioRedirectLoop_eq_ioScan (openOk : Nat → Bool) (rest : Tokens) :
    ∀ (pre : Tokens) (st : Shell) (fuel : Nat), rest.length < fuel →
      ioRedirectLoop openOk fuel pre.length (pre ++ rest) st =
        (ioScan openOk rest st).mapTokens (fun l => pre ++ l) := by
  induction rest with
  | nil =>
    intro pre st fuel hf
    obtain ⟨fuel, rfl⟩ : ∃ k, fuel = k + 1 := ⟨fuel - 1, by simp at hf; omega⟩
    simp [ioRedirectLoop, ioScan, Flow.mapTokens]
  | cons x rest ih =>
    intro pre st fuel hf
    obtain ⟨fuel, rfl⟩ : ∃ k, fuel = k + 1 := ⟨fuel - 1, by omega⟩
    have hf1 : rest.length < fuel := by simp at hf; omega
    have hlen : (pre ++ [none]).length = pre.length + 1 := by simp
    have hlen1 : ∀ tok : String, (pre ++ [some tok]).length = pre.length + 1 := by simp
    rw [ioRedirectLoop, getElem?_append_length]
    cases x with
    | none => simp [ioScan, Flow.mapTokens]
    | some tok =>
      simp only [List.head?_cons, getElem?_append_length_succ, set_append_length]
      rw [ioScan]
      by_cases h1 : tok = ">"
      · simp only [h1, if_true]
        cases hh : rest.head? with
        | none => simp [Flow.mapTokens]
        | some next =>
          simp only []
          cases ho : sysOpen openOk next OpenFlags.O_WRONLY_CREAT_TRUNC st with
          | mk b st1 =>
            cases b with
            | none => simp [Flow.mapTokens]
            | some f =>
              simp only []
              rw [← hlen, ih (pre ++ [none]) _ fuel hf1, Flow.mapTokens_mapTokens]
              simp
      · simp only [h1, if_false]
        by_cases h2 : tok = "<"
        · simp only [h2, if_true]
          cases hh : rest.head? with
          | none => simp [Flow.mapTokens]
          | some next =>
            simp only []
            cases ho : sysOpen openOk next OpenFlags.O_RDONLY st with
            | mk b st1 =>
              cases b with
              | none => simp [Flow.mapTokens]
              | some f =>
                simp only []
                rw [← hlen, ih (pre ++ [none]) _ fuel hf1, Flow.mapTokens_mapTokens]
                simp
        · simp only [h2, if_false]
          have e : pre ++ some tok :: rest = (pre ++ [some tok]) ++ rest := by simp
          rw [e, ← hlen1 tok, ih (pre ++ [some tok]) _ fuel hf1, Flow.mapTokens_mapTokens]
          simp

theorem getLast?_cons_of_getLast? (t tok : String) (ts : List String)
    (h : ts.getLast? = some tok) : (t :: ts).getLast? = some tok := by
  cases ts with
  | nil => cases h
  | cons a l => rw [List.getLast?_cons_cons]; exact h

/-- Passing one more token in front: an outcome for `ts` becomes an outcome for
`t :: ts`, the token `t` having become `nullMarker t`. -/
theorem IoOutcome.cons (openOk : Nat → Bool) (t : String) (ts : List String) (tail : Tokens)
    (st : Shell) (in0 out0 in1 out1 : Binding) (r : Flow (Tokens × Shell))
    (hin : inTarget (t :: ts) in0 = inTarget ts in1)
    (hout : outTarget (t :: ts) out0 = outTarget ts out1)
    (h : IoOutcome openOk ts tail st in1 out1 r) :
    IoOutcome openOk (t :: ts) tail st in0 out0
      (r.mapTokens (fun l => nullMarker t :: l)) := by
  rcases h with ⟨calls, hok, hr⟩ | ⟨k, calls, failed, msg, b0, b1, hk, hok, hf, hmsg, hcause, hr⟩
  · left
    refine ⟨calls, hok, ?_⟩
    rw [hr, hin, hout]
    simp [Flow.mapTokens]
  · right
    refine ⟨k + 1, calls, failed, msg, b0, b1, by simpa using hk, hok, hf, hmsg, ?_, ?_⟩
    · rcases hcause with ⟨hp, tok, hl, hm⟩ | hc
      · exact Or.inl ⟨hp, tok, getLast?_cons_of_getLast? t tok ts hl, hm⟩
      · exact Or.inr hc
    · rw [hr]
      simp [Flow.mapTokens]

theorem nullMarker_of_not_marker (t : String) (h1 : t ≠ ">") (h2 : t ≠ "<") :
    nullMarker t = some t := by
  simp [nullMarker, isMarker, h1, h2]

theorem AllOk.snoc {calls : List OpenCall} {c : OpenCall} (h : AllOk calls)
    (hc : c.ok = true) : AllOk (calls ++ [c]) := by
  intro x hx
  rw [List.mem_append] at hx
  rcases hx with hx | hx
  · exact h x hx
  · rw [List.mem_singleton] at hx; rw [hx]; exact hc

/-- The outcome of the loop of `ioRedirect` on tokens followed by NULL, for
every answer of the environment to the calls of `open`. -/
theorem ioScan_outcome (openOk : Nat → Bool) (tail : Tokens) (toks : List String) :
    ∀ (st : Shell) (in0 out0 : Binding) (pc : List OpenCall), AllOk pc →
      IoOutcome openOk toks tail st in0 out0
        (ioScan openOk (toks.map some ++ none :: tail)
          { st with fd0 := in0, fd1 := out0, opened := st.opened ++ pc }) := by
  induction toks with
  | nil =>
    intro st in0 out0 pc hpc
    left
    exact ⟨pc, hpc, by simp [ioScan, inTarget, outTarget]⟩
  | cons t ts ih =>
    intro st in0 out0 pc hpc
    rw [List.map_cons, List.cons_append, ioScan]
    by_cases h1 : t = ">"
    · simp only [h1, if_true]
      cases ts with
      | nil =>
        right
        refine ⟨0, pc, OpenCall.mk none OpenFlags.O_WRONLY_CREAT_TRUNC false, outputDiag,
          in0, out0, Nat.zero_le _, hpc, rfl, Or.inl rfl, Or.inl ⟨rfl, ">", rfl, rfl⟩, ?_⟩
        simp [sysOpen, outputDiag]
      | cons f ts1 =>
        cases ho : openOk (st.opened ++ pc).length with
        | false =>
          have ho1 := ho
          rw [List.length_append] at ho1
          right
          refine ⟨0, pc, OpenCall.mk (some f) OpenFlags.O_WRONLY_CREAT_TRUNC false, outputDiag,
            in0, out0, Nat.zero_le _, hpc, rfl, Or.inl rfl, Or.inr ho, ?_⟩
          simp [sysOpen, outputDiag, ho1]
        | true =>
          have ho1 := ho
          rw [List.length_append] at ho1
          have hrec := ih st in0 (Binding.file f OpenFlags.O_WRONLY_CREAT_TRUNC)
            (pc ++ [OpenCall.mk (some f) OpenFlags.O_WRONLY_CREAT_TRUNC true])
            (hpc.snoc rfl)
          have hlift := IoOutcome.cons openOk ">" (f :: ts1) tail st in0 out0 in0
            (Binding.file f OpenFlags.O_WRONLY_CREAT_TRUNC) _ (by simp [inTarget])
            (by simp [outTarget]) hrec
          have hn : nullMarker ">" = none := rfl
          rw [hn] at hlift
          simpa [sysOpen, ho1] using hlift
    · simp only [h1, if_false]
      by_cases h2 : t = "<"
      · simp only [h2, if_true]
        cases ts with
        | nil =>
          right
          refine ⟨0, pc, OpenCall.mk none OpenFlags.O_RDONLY false, inputDiag,
            in0, out0, Nat.zero_le _, hpc, rfl, Or.inr rfl, Or.inl ⟨rfl, "<", rfl, rfl⟩, ?_⟩
          simp [sysOpen, inputDiag]
        | cons f ts1 =>
          cases ho : openOk (st.opened ++ pc).length with
          | false =>
            have ho1 := ho
            rw [List.length_append] at ho1
            right
            refine ⟨0, pc, OpenCall.mk (some f) OpenFlags.O_RDONLY false, inputDiag,
              in0, out0, Nat.zero_le _, hpc, rfl, Or.inr rfl, Or.inr ho, ?_⟩
            simp [sysOpen, inputDiag, ho1]
          | true =>
            have ho1 := ho
            rw [List.length_append] at ho1
            have hrec := ih st (Binding.file f OpenFlags.O_RDONLY) out0
              (pc ++ [OpenCall.mk (some f) OpenFlags.O_RDONLY true]) (hpc.snoc rfl)
            have hlift := IoOutcome.cons openOk "<" (f :: ts1) tail st in0 out0
              (Binding.file f OpenFlags.O_RDONLY) out0 _ (by simp [inTarget])
              (by simp [outTarget]) hrec
            have hn : nullMarker "<" = none := rfl
            rw [hn] at hlift
            simpa [sysOpen, ho1] using hlift
      · simp only [h2, if_false]
        have hrec := ih st in0 out0 pc hpc
        have hlift := IoOutcome.cons openOk t ts tail st in0 out0 in0 out0 _
          (by simp [inTarget, h1, h2]) (by simp [outTarget, h1]) hrec
        rw [nullMarker_of_not_marker t h1 h2] at hlift
        exact hlift

theorem Flow.mapTokens_nil_append (r : Flow (Tokens × Shell)) :
    r.mapTokens (fun l => [] ++ l) = r := by
  cases r with
  | returned a => cases a; rfl
  | exited code a => cases a; rfl
  | replaced file argv a => cases a; rfl
  | undefined => rfl
  | outOfFuel => rfl

/-- The loop of `ioRedirect` as the function calls it (index 0, as many
iterations allowed as the array has entries, plus one) computes `ioScan`: the
iteration bound is never reached. -/
theorem ioRedirectLoop_start (openOk : Nat → Bool) (commandLine : Tokens) (st : Shell) :
    ioRedirectLoop openOk (commandLine.length + 1) 0 commandLine st =
      ioScan openOk commandLine st := by
  have h := ioRedirectLoop_eq_ioScan openOk commandLine [] st (commandLine.length + 1)
    (Nat.lt_succ_self _)
  rw [Flow.mapTokens_nil_append] at h
  exact h

theorem AllOk.nil : AllOk [] := fun c hc => absurd hc (List.not_mem_nil c)

/-- The function `ioRedirect` with its loop replaced by `ioScan`. -/
theorem ioRedirect_eq_scan (openOk : Nat → Bool) (commandLine : Tokens) (bg : Bool)
    (st : Shell) :
    ioRedirect openOk commandLine bg st =
      if bg = true then
        match sysOpen openOk (some "/dev/null") OpenFlags.O_WRONLY st with
        | (none, st1) => Flow.exited 1 (commandLine, perror outputDiag st1)
        | (some devNullOutput, st1) =>
          match sysOpen openOk (some "/dev/null") OpenFlags.O_RDONLY
              { st1 with fd1 := devNullOutput } with
          | (none, st2) => Flow.exited 1 (commandLine, perror inputDiag st2)
          | (some devNullInput, st2) =>
            ioScan openOk commandLine { st2 with fd0 := devNullInput }
      else
        ioScan openOk commandLine st := by
  unfold ioRedirect
  simp only [ioRedirectLoop_start, outputDiag, inputDiag]

/-- The outcome of `ioRedirect` on tokens followed by NULL, for every answer of
the environment: the bindings in force before the first token are those of
`/dev/null` for a background command and the inherited ones otherwise. -/
theorem ioRedirect_outcome (openOk : Nat → Bool) (toks : List String) (tail : Tokens)
    (bg : Bool) (st : Shell) :
    IoOutcome openOk toks tail st
      (if bg = true then Binding.file "/dev/null" OpenFlags.O_RDONLY else st.fd0)
      (if bg = true then Binding.file "/dev/null" OpenFlags.O_WRONLY else st.fd1)
      (ioRedirect openOk (toks.map some ++ none :: tail) bg st) := by
  rw [ioRedirect_eq_scan]
  cases bg with
  | false =>
    have h := ioScan_outcome openOk tail toks st st.fd0 st.fd1 [] AllOk.nil
    have e : ({ st with fd0 := st.fd0, fd1 := st.fd1, opened := st.opened ++ [] } : Shell)
        = st := by rw [List.append_nil]
    rw [e] at h
    simpa using h
  | true =>
    cases ho : openOk st.opened.length with
    | false =>
      right
      refine ⟨0, [], OpenCall.mk (some "/dev/null") OpenFlags.O_WRONLY false, outputDiag,
        st.fd0, st.fd1, Nat.zero_le _, AllOk.nil, rfl, Or.inl rfl,
        Or.inr (by simpa using ho), ?_⟩
      simp [sysOpen, ho]
    | true =>
      cases ho2 : openOk (st.opened.length + 1) with
      | false =>
        right
        refine ⟨0, [OpenCall.mk (some "/dev/null") OpenFlags.O_WRONLY true],
          OpenCall.mk (some "/dev/null") OpenFlags.O_RDONLY false, inputDiag,
          st.fd0, Binding.file "/dev/null" OpenFlags.O_WRONLY, Nat.zero_le _,
          AllOk.nil.snoc rfl, rfl, Or.inr rfl, Or.inr (by simpa using ho2), ?_⟩
        simp [sysOpen, ho, ho2]
      | true =>
        have h := ioScan_outcome openOk tail toks st
          (Binding.file "/dev/null" OpenFlags.O_RDONLY)
          (Binding.file "/dev/null" OpenFlags.O_WRONLY)
          [OpenCall.mk (some "/dev/null") OpenFlags.O_WRONLY true,
           OpenCall.mk (some "/dev/null") OpenFlags.O_RDONLY true]
          ((AllOk.nil.snoc rfl).snoc rfl)
        simpa [sysOpen, ho, ho2] using h

theorem argvOf_nullMarker (toks : List String) (tail : Tokens) :
    argvOf (toks.map nullMarker ++ none :: tail) = some (beforeFirstMarker toks) := by
  induction toks with
  | nil => rfl
  | cons t ts ih =>
    cases hm : isMarker t with
    | true => simp [nullMarker, hm, argvOf, beforeFirstMarker]
    | false =>
      simp only [beforeFirstMarker] at ih
      simp [nullMarker, hm, argvOf, beforeFirstMarker, ih]

/-- When every call of `open` succeeds and every marker is followed by a token,
`ioRedirect` returns. -/
theorem ioRedirect_returns (openOk : Nat → Bool) (hall : ∀ n, openOk n = true)
    (toks : List String) (tail : Tokens) (bg : Bool) (st : Shell)
    (hm : MarkersFollowed toks) :
    ∃ calls, AllOk calls ∧
      ioRedirect openOk (toks.map some ++ none :: tail) bg st =
        Flow.returned (toks.map nullMarker ++ none :: tail,
          { st with
            fd0 := inTarget toks
              (if bg = true then Binding.file "/dev/null" OpenFlags.O_RDONLY else st.fd0)
            fd1 := outTarget toks
              (if bg = true then Binding.file "/dev/null" OpenFlags.O_WRONLY else st.fd1)
            opened := st.opened ++ calls }) := by
  rcases ioRedirect_outcome openOk toks tail bg st with
    h | ⟨k, calls, failed, msg, b0, b1, -, -, -, -, hcause, -⟩
  · exact h
  · exfalso
    rcases hcause with ⟨-, tok, hl, hmk⟩ | hc
    · rw [hm tok hl] at hmk; cases hmk
    · rw [hall] at hc; cases hc

theorem outTarget_of_not_mem (toks : List String) (b : Binding) (h : ">" ∉ toks) :
    outTarget toks b = b := by
  induction toks generalizing b with
  | nil => rfl
  | cons t ts ih =>
    rw [List.mem_cons, not_or] at h
    rw [outTarget, if_neg (fun e => h.1 e.symm)]
    exact ih b h.2

theorem inTarget_of_not_mem (toks : List String) (b : Binding) (h : "<" ∉ toks) :
    inTarget toks b = b := by
  induction toks generalizing b with
  | nil => rfl
  | cons t ts ih =>
    rw [List.mem_cons, not_or] at h
    rw [inTarget]
    by_cases h1 : t = ">"
    · rw [if_pos h1]; exact ih b h.2
    · rw [if_neg h1, if_neg (fun e => h.1 e.symm)]; exact ih b h.2

theorem outTarget_last (pre : List String) (f : String) (post : List String) (b : Binding)
    (h : ">" ∉ f :: post) :
    outTarget (pre ++ ">" :: f :: post) b = Binding.file f OpenFlags.O_WRONLY_CREAT_TRUNC := by
  induction pre generalizing b with
  | nil =>
    rw [List.nil_append, outTarget, if_pos rfl]
    exact outTarget_of_not_mem _ _ h
  | cons t ts ih =>
    rw [List.cons_append, outTarget]
    by_cases h1 : t = ">"
    · rw [if_pos h1]
      cases ts with
      | nil => exact ih _
      | cons a l => exact ih _
    · rw [if_neg h1]; exact ih b

theorem inTarget_last (pre : List String) (f : String) (post : List String) (b : Binding)
    (h : "<" ∉ f :: post) :
    inTarget (pre ++ "<" :: f :: post) b = Binding.file f OpenFlags.O_RDONLY := by
  induction pre generalizing b with
  | nil =>
    rw [List.nil_append, inTarget, if_neg (by decide), if_pos rfl]
    exact inTarget_of_not_mem _ _ h
  | cons t ts ih =>
    rw [List.cons_append, inTarget]
    by_cases h1 : t = ">"
    · rw [if_pos h1]; exact ih b
    · rw [if_neg h1]
      by_cases h2 : t = "<"
      · rw [if_pos h2]
        cases ts with
        | nil => exact ih _
        | cons a l => exact ih _
      · rw [if_neg h2]; exact ih b

/-! ## C4: the bindings after `ioRedirect` -/

/-- C4. When every call of `open` succeeds (and every marker has a token after
it to open), `ioRedirect` returns with standard output bound to the file named
after the last ">" (write-only, create, truncate), else to `/dev/null`
(write-only) for a background command, else as it was; and with standard input
bound to the file named after the last "<" (read-only), else to `/dev/null`
(read-only) for a background command, else as it was. -/
theorem ioRedirect_bindings (openOk : Nat → Bool) (toks : List String) (tail : Tokens)
    (bg : Bool) (st : Shell)
    (hall : ∀ n, openOk n = true) (hm : MarkersFollowed toks) :
    ∃ commandLine1 st1,
      ioRedirect openOk (toks.map some ++ none :: tail) bg st
        = Flow.returned (commandLine1, st1) ∧
      (∀ pre f post, toks = pre ++ ">" :: f :: post → ">" ∉ f :: post →
        st1.fd1 = Binding.file f OpenFlags.O_WRONLY_CREAT_TRUNC) ∧
      (">" ∉ toks →
        st1.fd1 =
          if bg = true then Binding.file "/dev/null" OpenFlags.O_WRONLY else st.fd1) ∧
      (∀ pre f post, toks = pre ++ "<" :: f :: post → "<" ∉ f :: post →
        st1.fd0 = Binding.file f OpenFlags.O_RDONLY) ∧
      ("<" ∉ toks →
        st1.fd0 =
          if bg = true then Binding.file "/dev/null" OpenFlags.O_RDONLY else st.fd0) := by
  obtain ⟨calls, -, hr⟩ := ioRedirect_returns openOk hall toks tail bg st hm
  refine ⟨_, _, hr, ?_, ?_, ?_, ?_⟩
  · intro pre f post e hn
    subst e
    exact outTarget_last pre f post _ hn
  · intro hn
    exact outTarget_of_not_mem toks _ hn
  · intro pre f post e hn
    subst e
    exact inTarget_last pre f post _ hn
  · intro hn
    exact inTarget_of_not_mem toks _ hn

/-! ## `executeCommand` -/

theorem nullMarker_of_isMarker_false (t : String) (h : isMarker t = false) :
    nullMarker t = some t := by
  simp [nullMarker, h]

/-- What `executeCommand` does once `ioRedirect` has returned, the program name
`cmd` not being a marker. -/
theorem executeCommand_of_returned (openOk : Nat → Bool) (execOk : Bool) (cmd : String)
    (args : List String) (tail : Tokens) (bg : Bool) (st st1 : Shell)
    (hcmd : isMarker cmd = false)
    (hr : ioRedirect openOk ((cmd :: args).map some ++ none :: tail) bg st =
      Flow.returned ((cmd :: args).map nullMarker ++ none :: tail, st1)) :
    executeCommand openOk execOk ((cmd :: args).map some ++ none :: tail) bg st =
      if execOk = true then
        Flow.replaced cmd (beforeFirstMarker (cmd :: args))
          ((cmd :: args).map nullMarker ++ none :: tail, st1)
      else
        Flow.exited 1 ((cmd :: args).map nullMarker ++ none :: tail, perror execDiag st1) := by
  have h0 : ((cmd :: args).map nullMarker ++ none :: tail)[0]?.join = some cmd := by
    simp [nullMarker_of_isMarker_false cmd hcmd]
  rw [executeCommand, hr]
  simp only [h0, execvp, argvOf_nullMarker]
  cases execOk <;> simp [execError, execDiag]

/-- The end of `executeCommand` for every answer of the environment. -/
theorem executeCommand_outcome (openOk : Nat → Bool) (execOk : Bool) (cmd : String)
    (args : List String) (tail : Tokens) (bg : Bool) (st : Shell)
    (hcmd : isMarker cmd = false) :
    ChildEnds execOk cmd (cmd :: args) tail st
      (executeCommand openOk execOk ((cmd :: args).map some ++ none :: tail) bg st) := by
  rcases ioRedirect_outcome openOk (cmd :: args) tail bg st with
    ⟨calls, hok, hr⟩ | ⟨k, calls, failed, msg, b0, b1, hk, hok, hf, hmsg, -, hr⟩
  · rw [executeCommand_of_returned openOk execOk cmd args tail bg st _ hcmd hr]
    cases execOk with
    | true => exact Or.inl ⟨rfl, calls, _, _, _, hok, rfl⟩
    | false => exact Or.inr (Or.inr ⟨rfl, calls, _, _, _, hok, rfl⟩)
  · right; left
    refine ⟨k, calls, failed, msg, b0, b1, hk, hok, hf, hmsg, ?_⟩
    rw [executeCommand, hr]

/-! ## C3: the argument vector given to `execvp` -/

theorem removeRedirections_onlyRedirections (n : Nat) :
    ∀ redirs : List String, redirs.length ≤ n → onlyRedirections redirs = true →
      removeRedirections redirs = [] := by
  induction n with
  | zero =>
    intro redirs hlen _
    cases redirs with
    | nil => rfl
    | cons a l => simp at hlen
  | succ n ih =>
    intro redirs hlen h
    match redirs, hlen, h with
    | [], _, _ => rfl
    | [_], _, h => cases h
    | tok :: next :: rest, hlen, h =>
      rw [onlyRedirections, Bool.and_eq_true] at h
      rw [removeRedirections, if_pos h.1]
      exact ih rest (by simp at hlen; omega) h.2

theorem beforeFirstMarker_onlyRedirections (redirs : List String)
    (h : onlyRedirections redirs = true) : beforeFirstMarker redirs = [] := by
  match redirs, h with
  | [], _ => rfl
  | [_], h => cases h
  | tok :: next :: rest, h =>
    rw [onlyRedirections, Bool.and_eq_true] at h
    simp [beforeFirstMarker, h.1]

/-- Where only pairs of a marker and a file name follow the plain tokens, the
tokens before the first marker are the tokens with the pairs removed. -/
theorem beforeFirstMarker_eq_removeRedirections (plain redirs : List String)
    (hp : ∀ tok ∈ plain, isMarker tok = false) (hr : onlyRedirections redirs = true) :
    beforeFirstMarker (plain ++ redirs) = removeRedirections (plain ++ redirs) := by
  induction plain with
  | nil =>
    rw [List.nil_append, beforeFirstMarker_onlyRedirections redirs hr,
      removeRedirections_onlyRedirections redirs.length redirs (Nat.le_refl _) hr]
  | cons t ts ih =>
    have ht : isMarker t = false := hp t (List.mem_cons_self t ts)
    have ih1 := ih (fun tok htok => hp tok (List.mem_cons_of_mem t htok))
    have hb : beforeFirstMarker (t :: ts ++ redirs) = t :: beforeFirstMarker (ts ++ redirs) := by
      simp [beforeFirstMarker, ht]
    rw [hb, ih1, List.cons_append]
    cases ts ++ redirs with
    | nil => simp [removeRedirections, ht]
    | cons a l => simp [removeRedirections, ht]

/-- C3, amended.  For a command whose program name is not a marker, every
marker being followed by a token and every call of `open` and the `execvp`
succeeding, the argument vector `executeCommand` gives to `execvp` is the
tokens before the first marker, in order.  That is the token sequence with
every marker and following file name removed whenever nothing but such pairs
comes after the first marker. -/
theorem executeCommand_argv (openOk : Nat → Bool) (cmd : String) (args : List String)
    (tail : Tokens) (bg : Bool) (st : Shell)
    (hall : ∀ n, openOk n = true) (hcmd : isMarker cmd = false)
    (hm : MarkersFollowed (cmd :: args)) :
    (∃ commandLine1 st1,
      executeCommand openOk true ((cmd :: args).map some ++ none :: tail) bg st =
        Flow.replaced cmd (beforeFirstMarker (cmd :: args)) (commandLine1, st1)) ∧
    (∀ plain redirs, cmd :: args = plain ++ redirs →
      (∀ tok ∈ plain, isMarker tok = false) → onlyRedirections redirs = true →
      beforeFirstMarker (cmd :: args) = removeRedirections (cmd :: args)) := by
  constructor
  · obtain ⟨calls, -, hr⟩ := ioRedirect_returns openOk hall (cmd :: args) tail bg st hm
    rw [executeCommand_of_returned openOk true cmd args tail bg st _ hcmd hr]
    exact ⟨_, _, rfl⟩
  · intro plain redirs e hp hr
    rw [e]
    exact beforeFirstMarker_eq_removeRedirections plain redirs hp hr

theorem markersFollowed_example : MarkersFollowed ["cmd", ">", "out", "extra"] := by
  intro tok h
  have e : tok = "extra" := by
    simp [List.getLast?] at h
    exact h.symm
  rw [e]; rfl

/-- Witness for C3 (amended): the tokens `cmd > out extra`. -/
theorem executeCommand_argv_witness :
    ∃ commandLine1 st1,
      executeCommand allOpen true
          (["cmd", ">", "out", "extra"].map some ++ none :: []) false Shell.initial =
        Flow.replaced "cmd" (beforeFirstMarker ["cmd", ">", "out", "extra"])
          (commandLine1, st1) :=
  (executeCommand_argv allOpen "cmd" [">", "out", "extra"] [] false Shell.initial
    (fun _ => rfl) (by rfl) markersFollowed_example).1

/-- C3 as stated fails on the tokens `cmd > out extra`: `execvp` is given the
vector `[cmd]`, while the tokens with the marker and the file name removed are
`[cmd, extra]`. -/
theorem executeCommand_argv_drops_later_tokens :
    (executeCommand allOpen true
      [some "cmd", some ">", some "out", some "extra", none] false Shell.initial).argv?
        = some ["cmd"] ∧
    removeRedirections ["cmd", ">", "out", "extra"] = ["cmd", "extra"] := by
  exact ⟨by rfl, by rfl⟩

/-- Witness for C4: `sleep 1 > out.txt &`, the "&" already replaced by NULL. -/
theorem ioRedirect_bindings_witness :
    ∃ commandLine1 st1,
      ioRedirect allOpen (["sleep", "1", ">", "out.txt"].map some ++ none :: [none]) true
        Shell.initial = Flow.returned (commandLine1, st1) ∧
      st1.fd1 = Binding.file "out.txt" OpenFlags.O_WRONLY_CREAT_TRUNC ∧
      st1.fd0 = Binding.file "/dev/null" OpenFlags.O_RDONLY := by
  obtain ⟨commandLine1, st1, hr, h1, -, -, h4⟩ :=
    ioRedirect_bindings allOpen ["sleep", "1", ">", "out.txt"] [none] true Shell.initial
      (fun _ => rfl)
      (by
        intro tok h
        have e : tok = "out.txt" := by
          simp [List.getLast?] at h
          exact h.symm
        rw [e]; rfl)
  exact ⟨commandLine1, st1, hr, h1 ["sleep", "1"] "out.txt" [] rfl (by decide), h4 (by decide)⟩

/-! ## C5: the child never comes back from `executeCommand` -/

theorem getElem?_map_some_append (l : List String) (rest : Tokens) (k : Nat)
    (hk : k < l.length) : (l.map some ++ rest)[k]? = some (some (l.get ⟨k, hk⟩)) := by
  rw [List.getElem?_append_left (by simpa using hk)]
  simp [List.getElem?_eq_getElem hk]

theorem set_map_some_append (l : List String) (rest : Tokens) :
    ∀ k, k < l.length →
      (l.map some ++ rest).set k none =
        (l.take k).map some ++ none :: ((l.drop (k + 1)).map some ++ rest) := by
  induction l with
  | nil => intro k hk; simp at hk
  | cons a l ih =>
    intro k hk
    cases k with
    | zero => simp
    | succ k =>
      have hk1 : k < l.length := by simpa using hk
      simp [ih k hk1]

theorem ChildEnds.ne_returned {execOk : Bool} {cmd : String} {toks : List String}
    {tail : Tokens} {st : Shell} {r : Flow (Tokens × Shell)}
    (h : ChildEnds execOk cmd toks tail st r) : ∀ x, r ≠ Flow.returned x := by
  intro x hx
  rcases h with ⟨-, _, _, _, _, -, hr⟩ | ⟨_, _, _, _, _, _, -, -, -, -, hr⟩ |
    ⟨-, _, _, _, _, -, hr⟩ <;> rw [hr] at hx <;> cases hx

/-- In the child, `createFork` is `executeCommand` in the child's state, as
long as `executeCommand` does not return. -/
theorem createFork_child_eq (env : Env) (commandLine commandLine1 : Tokens) (lastIndex : Int)
    (terminateFgChild ignoreSIGTSTP : Disposition) (st : Shell) (bg : Bool)
    (hfork : env.forkResult = 0)
    (hbg : isBackgroundProcess commandLine lastIndex st = some (bg, commandLine1, st))
    (hne : ∀ x, executeCommand env.openOk env.execOk commandLine1 bg
      (childState terminateFgChild ignoreSIGTSTP bg st) ≠ Flow.returned x) :
    createFork env commandLine lastIndex terminateFgChild ignoreSIGTSTP st =
      executeCommand env.openOk env.execOk commandLine1 bg
        (childState terminateFgChild ignoreSIGTSTP bg st) := by
  rw [createFork, hbg]
  simp only [hfork, if_true]
  change (match executeCommand env.openOk env.execOk commandLine1 bg
      (childState terminateFgChild ignoreSIGTSTP bg st) with
    | Flow.returned (commandLine2, st4) => createForkParent env 0 bg commandLine2 st4
    | other => other) = _
  cases hr : executeCommand env.openOk env.execOk commandLine1 bg
      (childState terminateFgChild ignoreSIGTSTP bg st) with
  | returned x => exact absurd hr (hne x)
  | exited code a => rfl
  | replaced file argv a => rfl
  | undefined => rfl
  | outOfFuel => rfl

/-- The child of a command that starts with a program name.  In the child
(`fork` returned 0), for a command whose first token is neither a marker nor
"&" and an index `lastIndex` pointing at one of its tokens, and for every
answer to the calls of `open` and to `execvp`:
`createFork` ends as `executeCommand` ends, and that is the replacement of the
image (all calls of `open` and `execvp` succeeded), or `exit(1)` after one
diagnostic at the first failing `open` (the last call of `open` made, the
later tokens untouched), or `exit(1)` after the diagnostic of `execError`.  It
never returns, so control never continues in the `default:` arm. -/
theorem createFork_child_never_returns (env : Env) (cmd : String) (args : List String)
    (tail : Tokens) (lastIndex : Int) (terminateFgChild ignoreSIGTSTP : Disposition)
    (st : Shell)
    (hfork : env.forkResult = 0) (hcmd : isMarker cmd = false) (hamp : cmd ≠ "&")
    (hidx : 0 ≤ lastIndex) (hlast : lastIndex.toNat < (cmd :: args).length) :
    ∃ bg args1 tail1,
      isBackgroundProcess ((cmd :: args).map some ++ none :: tail) lastIndex st =
        some (bg, (cmd :: args1).map some ++ none :: tail1, st) ∧
      createFork env ((cmd :: args).map some ++ none :: tail) lastIndex
          terminateFgChild ignoreSIGTSTP st =
        executeCommand env.openOk env.execOk ((cmd :: args1).map some ++ none :: tail1) bg
          (childState terminateFgChild ignoreSIGTSTP bg st) ∧
      ChildEnds env.execOk cmd (cmd :: args1) tail1
        (childState terminateFgChild ignoreSIGTSTP bg st)
        (createFork env ((cmd :: args).map some ++ none :: tail) lastIndex
          terminateFgChild ignoreSIGTSTP st) ∧
      ∀ x, createFork env ((cmd :: args).map some ++ none :: tail) lastIndex
          terminateFgChild ignoreSIGTSTP st ≠ Flow.returned x := by
  obtain ⟨tok, htok⟩ : ∃ tok,
      ((cmd :: args).map some ++ none :: tail)[lastIndex.toNat]? = some (some tok) :=
    ⟨_, getElem?_map_some_append (cmd :: args) (none :: tail) lastIndex.toNat hlast⟩
  have hbg := isBackgroundProcess_eq ((cmd :: args).map some ++ none :: tail) lastIndex
    tok st hidx htok
  have key : ∀ bg args1 tail1,
      isBackgroundProcess ((cmd :: args).map some ++ none :: tail) lastIndex st =
        some (bg, (cmd :: args1).map some ++ none :: tail1, st) →
      ∃ bg args1 tail1,
        isBackgroundProcess ((cmd :: args).map some ++ none :: tail) lastIndex st =
          some (bg, (cmd :: args1).map some ++ none :: tail1, st) ∧
        createFork env ((cmd :: args).map some ++ none :: tail) lastIndex
            terminateFgChild ignoreSIGTSTP st =
          executeCommand env.openOk env.execOk ((cmd :: args1).map some ++ none :: tail1) bg
            (childState terminateFgChild ignoreSIGTSTP bg st) ∧
        ChildEnds env.execOk cmd (cmd :: args1) tail1
          (childState terminateFgChild ignoreSIGTSTP bg st)
          (createFork env ((cmd :: args).map some ++ none :: tail) lastIndex
            terminateFgChild ignoreSIGTSTP st) ∧
        ∀ x, createFork env ((cmd :: args).map some ++ none :: tail) lastIndex
            terminateFgChild ignoreSIGTSTP st ≠ Flow.returned x := by
    intro bg args1 tail1 h
    have hout := executeCommand_outcome env.openOk env.execOk cmd args1 tail1 bg
      (childState terminateFgChild ignoreSIGTSTP bg st) hcmd
    have heq := createFork_child_eq env _ _ lastIndex terminateFgChild ignoreSIGTSTP st bg
      hfork h hout.ne_returned
    refine ⟨bg, args1, tail1, h, heq, ?_, ?_⟩
    · rw [heq]; exact hout
    · rw [heq]; exact hout.ne_returned
  by_cases hamp1 : tok = "&"
  · rw [if_pos hamp1] at hbg
    obtain ⟨k, hk⟩ : ∃ k, lastIndex.toNat = k + 1 := by
      cases hn : lastIndex.toNat with
      | zero =>
        exfalso
        rw [hn] at htok
        have h0 : tok = cmd := by
          simp at htok
          exact htok.symm
        exact hamp (h0.symm.trans hamp1)
      | succ k => exact ⟨k, rfl⟩
    have htake : List.take lastIndex.toNat (cmd :: args) = cmd :: args.take k := by
      rw [hk, List.take_succ_cons]
    rw [set_map_some_append (cmd :: args) (none :: tail) lastIndex.toNat hlast, htake] at hbg
    exact key _ _ _ hbg
  · rw [if_neg hamp1] at hbg
    exact key _ _ _ hbg

/-- An instance of the preceding theorem: the child of `cat < in > out`, the
second `open` refused.
The child exits with status 1 after the diagnostic for the output file, having
made two calls of `open`. -/
theorem createFork_child_never_returns_witness :
    ∃ bg args1 tail1,
      isBackgroundProcess (("cat" :: ["<", "in", ">", "out"]).map some ++ none :: []) 4
          Shell.initial =
        some (bg, ("cat" :: args1).map some ++ none :: tail1, Shell.initial) ∧
      createFork secondOpenRefused (("cat" :: ["<", "in", ">", "out"]).map some ++ none :: [])
          4 Disposition.SIG_DFL Disposition.SIG_IGN Shell.initial =
        executeCommand secondOpenRefused.openOk secondOpenRefused.execOk
          (("cat" :: args1).map some ++ none :: tail1) bg
          (childState Disposition.SIG_DFL Disposition.SIG_IGN bg Shell.initial) ∧
      ChildEnds secondOpenRefused.execOk "cat" ("cat" :: args1) tail1
        (childState Disposition.SIG_DFL Disposition.SIG_IGN bg Shell.initial)
        (createFork secondOpenRefused
          (("cat" :: ["<", "in", ">", "out"]).map some ++ none :: []) 4
          Disposition.SIG_DFL Disposition.SIG_IGN Shell.initial) ∧
      ∀ x, createFork secondOpenRefused
          (("cat" :: ["<", "in", ">", "out"]).map some ++ none :: []) 4
          Disposition.SIG_DFL Disposition.SIG_IGN Shell.initial ≠ Flow.returned x :=
  createFork_child_never_returns secondOpenRefused "cat" ["<", "in", ">", "out"] [] 4
    Disposition.SIG_DFL Disposition.SIG_IGN Shell.initial
    (by rfl) (by rfl) (by decide) (by decide) (by decide)

/-- The same run evaluated: exit status 1, one diagnostic, the second call of
`open` the last one, the marker ">" and the tokens after it untouched. -/
theorem createFork_child_second_open_refused :
    ∃ st1,
      createFork secondOpenRefused [some "cat", some "<", some "in", some ">", some "out", none]
          4 Disposition.SIG_DFL Disposition.SIG_IGN Shell.initial =
        Flow.exited 1 ([some "cat", none, some "in", some ">", some "out", none], st1) ∧
      st1.err = [outputDiag] ∧
      st1.opened = [OpenCall.mk (some "in") OpenFlags.O_RDONLY true,
        OpenCall.mk (some "out") OpenFlags.O_WRONLY_CREAT_TRUNC false] ∧
      st1.out = [] ∧ st1.waited = [] :=
  ⟨_, by rfl, by rfl, by rfl, by rfl, by rfl⟩

/-- C5 (the code at a failing input).  The line `> out` is accepted by
`printShellPrompt` and is no built-in, so `createFork` runs it.  In the child
`ioRedirect` opens `out` with success, replaces entry 0 of the array (the
marker) by NULL and returns; `executeCommand` then calls
`execvp(commandLine[0], commandLine)` with a NULL program name, which the
contract of `execvp` does not cover: the child neither replaces its image nor
exits with status 1 after a diagnostic (no diagnostic is written by
`ioRedirect`, and `execError` is not reached).  The same holds for the line
consisting of a lone `&`, whose entry 0 `isBackgroundProcess` replaces by
NULL. -/
theorem createFork_child_without_program_name :
    numArguments "> out\n".data = 1 ∧
    tokenizeString "> out".data = some [some ">", some "out", none] ∧
    (∃ st1,
      ioRedirect allOpen [some ">", some "out", none] false
          (childState terminateFgChild ignoreSIGTSTP false (installSignals Shell.initial)) =
        Flow.returned ([none, some "out", none], st1) ∧
      st1.err = [] ∧
      st1.opened = [OpenCall.mk (some "out") OpenFlags.O_WRONLY_CREAT_TRUNC true]) ∧
    executeCommand allOpen true [some ">", some "out", none] false
        (childState terminateFgChild ignoreSIGTSTP false (installSignals Shell.initial)) =
      Flow.undefined ∧
    createFork inChild [some ">", some "out", none] 1 terminateFgChild ignoreSIGTSTP
        (installSignals Shell.initial) = Flow.undefined ∧
    promptRound redirectionOnly (installSignals Shell.initial) = Flow.undefined ∧
    tokenizeString "&".data = some [some "&", none] ∧
    isBackgroundProcess [some "&", none] 0 (installSignals Shell.initial) =
      some (true, [none, none], installSignals Shell.initial) ∧
    createFork inChild [some "&", none] 0 terminateFgChild ignoreSIGTSTP
        (installSignals Shell.initial) = Flow.undefined ∧
    promptRound ampersandOnly (installSignals Shell.initial) = Flow.undefined :=
  ⟨by rfl, by rfl, ⟨_, by rfl, by rfl, by rfl⟩, by rfl, by rfl, by rfl, by rfl, by rfl,
    by rfl, by rfl⟩

/-! ## C13: the built-in `exit` -/

/-- The state after the first `n` iterations of the loop of
`killBackgroundProcesses`. -/
theorem killBackgroundProcesses_loop (st : Shell) (n : Nat) :
    (List.range n).foldl killBackgroundProcessesStep st =
      { st with killed := st.killed ++ probedPids st.pidArray n } := by
  induction n with
  | zero => simp [probedPids]
  | succ n ih =>
    rw [List.range_succ, List.foldl_append, ih, List.foldl_cons, List.foldl_nil,
      probedPids_succ]
    by_cases h : st.pidArray.getD n 0 = 0
    · have ht : tracked st.pidArray n = false := by
        unfold tracked; rw [h]; rfl
      rw [killBackgroundProcessesStep, if_neg (fun hh => hh h), ht]
      simp
    · have ht : tracked st.pidArray n = true := by
        unfold tracked; exact decide_eq_true h
      rw [killBackgroundProcessesStep, if_pos h, ht]
      show _ = _
      simp only [if_true, List.append_assoc]

/-- The function `killBackgroundProcesses` in closed form: the non-zero entries
of the table are signalled, in slot order, and nothing else changes. -/
theorem killBackgroundProcesses_eq (st : Shell) :
    killBackgroundProcesses st =
      { st with killed := st.killed ++ probedPids st.pidArray 100 } :=
  killBackgroundProcesses_loop st 100

/-- C13. When the first token is "exit", `builtInFunctions` terminates the shell
with exit status 0 after `kill(pid, SIGKILL)` on exactly the non-zero entries
of `pidArray`, each once and in slot order.  Nothing else changes: the table is
as it was, no `waitpid` is issued, nothing is printed, and the result does not
depend on the answers of the environment (no process is spawned). -/
theorem builtInFunctions_exit (env : Env) (home : Option String) (chdirOk : Bool)
    (commandLine : Tokens) (lastIndex : Int)
    (terminateFgChild ignoreSIGTSTP : Disposition) (st : Shell)
    (h : commandLine[0]? = some (some "exit")) :
    builtInFunctions env home chdirOk commandLine lastIndex
        terminateFgChild ignoreSIGTSTP st =
      Flow.exited 0
        (commandLine, { st with killed := st.killed ++ probedPids st.pidArray 100 }) ∧
    (∀ p, p ∈ probedPids st.pidArray 100 ↔
      ∃ i, i < 100 ∧ st.pidArray.getD i 0 ≠ 0 ∧ st.pidArray.getD i 0 = p) := by
  constructor
  · rw [builtInFunctions, h]
    simp only [if_true]
    rw [killBackgroundProcesses_eq]
  · intro p
    constructor
    · exact mem_probedPids _ _ _
    · rintro ⟨i, hi, h0, hp⟩
      unfold probedPids
      rw [List.mem_map]
      refine ⟨i, ?_, hp⟩
      rw [List.mem_filter, List.mem_range]
      exact ⟨hi, decide_eq_true h0⟩

/-- Witness for C13: `exit` with the jobs 1234 and 1250 tracked. -/
theorem builtInFunctions_exit_witness :
    builtInFunctions quickChild none true [some "exit", none] 0
        Disposition.SIG_DFL Disposition.SIG_IGN twoJobs =
      Flow.exited 0 ([some "exit", none], { twoJobs with killed := [1234, 1250] }) :=
  (builtInFunctions_exit quickChild none true [some "exit", none] 0
    Disposition.SIG_DFL Disposition.SIG_IGN twoJobs (by rfl)).1.trans (by rfl)

/-! ## C19: the status before any child was waited for -/

/-- C19 (the code at a failing input).  With `childExitMethod` still at its
initialiser -5, `WIFSIGNALED` holds (the low seven bits are 123), and
`getStatus` prints "terminated by signal 123", not a line "exit value n". -/
theorem getStatus_initial :
    Shell.initial.childExitMethod = -5 ∧
    WIFSIGNALED (-5) = true ∧
    (getStatus Shell.initial).out = ["terminated by signal 123\n"] := by
  exact ⟨by rfl, by rfl, by rfl⟩

/-! ## C14: the background arm of `createFork` -/

theorem getD_set_self (l : List Int) (n : Nat) (a : Int) (h : n < l.length) :
    (l.set n a).getD n 0 = a := by
  simp [List.getD_eq_getElem?_getD, List.getElem?_set, h]

theorem getD_set_other (l : List Int) (n i : Nat) (a : Int) (h : i ≠ n) :
    (l.set n a).getD i 0 = l.getD i 0 := by
  simp [List.getD_eq_getElem?_getD, List.getElem?_set, Ne.symm h]

/-- The parent of an effective-background launch with room in the table. -/
theorem createFork_background_eq (env : Env) (commandLine : Tokens) (lastIndex : Int)
    (terminateFgChild ignoreSIGTSTP : Disposition) (st : Shell)
    (hidx : 0 ≤ lastIndex)
    (htok : commandLine[lastIndex.toNat]? = some (some "&"))
    (hmode : st.isForegroundOnly = false)
    (hpid : 0 < env.forkResult)
    (hroom : st.pidIndex < 100) :
    createFork env commandLine lastIndex terminateFgChild ignoreSIGTSTP st =
      Flow.returned (commandLine.set lastIndex.toNat none,
        { st with
          out := st.out ++ ["background pid is " ++ fmtInt env.forkResult ++ "\n"]
          pidArray := st.pidArray.set st.pidIndex env.forkResult
          pidIndex := st.pidIndex + 1
          waited := st.waited ++ [env.forkResult]
          childExitMethod := storedStatus env.waitBg st.childExitMethod }) := by
  have h1 : env.forkResult ≠ -1 := by omega
  have h0 : env.forkResult ≠ 0 := by omega
  rw [createFork, isBackgroundProcess_eq commandLine lastIndex "&" st hidx htok]
  simp only [hmode, h1, h0, if_false, createForkParent, hroom, if_true, decide_True,
    Bool.not_false, Bool.and_self]
  cases env.waitBg <;> simp [waitpid, storedStatus]

/-- C14. In the parent of an effective-background launch that spawned pid `p`,
with fewer than 100 pids registered so far: `createFork` returns having printed
exactly "background pid is p", stored `p` in slot `pidIndex`, increased
`pidIndex` by one and left every other slot as it was, whatever the immediate
probe answers.  Exactly one `waitpid` is issued, the `WNOHANG` one: SIGTSTP is
not blocked and the result does not depend on what a blocking wait or
`sigprocmask` would answer. -/
theorem createFork_background (env : Env) (commandLine : Tokens) (lastIndex : Int)
    (terminateFgChild ignoreSIGTSTP : Disposition) (st : Shell)
    (hidx : 0 ≤ lastIndex)
    (htok : commandLine[lastIndex.toNat]? = some (some "&"))
    (hmode : st.isForegroundOnly = false)
    (hpid : 0 < env.forkResult)
    (hroom : st.pidIndex < 100)
    (hlen : st.pidArray.length = 100) :
    createFork env commandLine lastIndex terminateFgChild ignoreSIGTSTP st =
      Flow.returned (commandLine.set lastIndex.toNat none,
        { st with
          out := st.out ++ ["background pid is " ++ fmtInt env.forkResult ++ "\n"]
          pidArray := st.pidArray.set st.pidIndex env.forkResult
          pidIndex := st.pidIndex + 1
          waited := st.waited ++ [env.forkResult]
          childExitMethod := storedStatus env.waitBg st.childExitMethod }) ∧
    (st.pidArray.set st.pidIndex env.forkResult).getD st.pidIndex 0 = env.forkResult ∧
    (∀ j, j ≠ st.pidIndex →
      (st.pidArray.set st.pidIndex env.forkResult).getD j 0 = st.pidArray.getD j 0) ∧
    (∀ env2 : Env, env2.forkResult = env.forkResult → env2.waitBg = env.waitBg →
      createFork env2 commandLine lastIndex terminateFgChild ignoreSIGTSTP st =
        createFork env commandLine lastIndex terminateFgChild ignoreSIGTSTP st) := by
  refine ⟨createFork_background_eq env commandLine lastIndex terminateFgChild ignoreSIGTSTP st
    hidx htok hmode hpid hroom, ?_, ?_, ?_⟩
  · exact getD_set_self _ _ _ (by omega)
  · intro j hj
    exact getD_set_other _ _ _ _ hj
  · intro env2 hf hw
    rw [createFork_background_eq env commandLine lastIndex terminateFgChild ignoreSIGTSTP st
        hidx htok hmode hpid hroom,
      createFork_background_eq env2 commandLine lastIndex terminateFgChild ignoreSIGTSTP st
        hidx htok hmode (by omega) hroom, hf, hw]

/-- Witness for C14: `sleep 5 &` from the initial state, the child still
running at the immediate probe. -/
theorem createFork_background_witness :
    createFork stillRunning [some "sleep", some "5", some "&", none] 2
        Disposition.SIG_DFL Disposition.SIG_IGN Shell.initial =
      Flow.returned ([some "sleep", some "5", none, none],
        { Shell.initial with
          out := ["background pid is 1234\n"]
          pidArray := (1234 : Int) :: List.replicate 99 0
          pidIndex := 1
          waited := [1234] }) :=
  (createFork_background stillRunning [some "sleep", some "5", some "&", none] 2
    Disposition.SIG_DFL Disposition.SIG_IGN Shell.initial
    (by decide) (by decide) (by rfl) (by decide) (by decide) (by rfl)).1.trans (by rfl)

/-! ## C16: the signal mask after a foreground launch -/

/-- C16 (the code at a failing input).  A foreground launch in which blocking
SIGTSTP succeeds and the blocking `waitpid` returns -1: `createFork` returns to
the prompt loop with SIGTSTP still blocked, although it was not blocked on
entry; no diagnostic is printed. -/
theorem createFork_leaves_SIGTSTP_blocked :
    ∃ commandLine1 st1,
      createFork waitFails [some "sleep", some "5", none] 1
          Disposition.SIG_DFL Disposition.SIG_IGN Shell.initial =
        Flow.returned (commandLine1, st1) ∧
      Shell.initial.tstpBlocked = false ∧
      st1.tstpBlocked = true ∧
      st1.err = [] :=
  ⟨_, _, by rfl, by rfl, by rfl, by rfl⟩

/-! ## C11: pids that stay in the table -/

/-- C11 (the code at a failing input).  The launch `true &` whose immediate
`WNOHANG` probe already collects the child (pid 1234, status 256): the pid is
registered all the same.  The table now holds a pid whose status has been
collected; `checkBackgroundStatus` calls `waitpid` on it again, finds no such
child and keeps the entry, and `killBackgroundProcesses` sends SIGKILL to
that pid. -/
theorem createFork_registers_collected_pid :
    ∃ commandLine1 st1,
      createFork quickChild [some "true", some "&", none] 1
          Disposition.SIG_DFL Disposition.SIG_IGN Shell.initial =
        Flow.returned (commandLine1, st1) ∧
      quickChild.waitBg = WaitResult.reaped 256 ∧
      st1.childExitMethod = 256 ∧
      st1.waited = [1234] ∧
      st1.pidArray.getD 0 0 = 1234 ∧
      (checkBackgroundStatus noneLeft st1).waited = [1234, 1234] ∧
      (checkBackgroundStatus noneLeft st1).pidArray.getD 0 0 = 1234 ∧
      (checkBackgroundStatus noneLeft st1).out = ["background pid is 1234\n"] ∧
      (killBackgroundProcesses st1).killed = [1234] :=
  ⟨_, _, by rfl, by rfl, by rfl, by rfl, by rfl, by rfl, by rfl, by rfl, by rfl⟩

/-! ## C15: signal dispositions -/

/-- The parent arm of `createFork` changes no signal disposition. -/
theorem createForkParent_dispositions (env : Env) (spawnPid : Int) (bg : Bool)
    (commandLine : Tokens) (st st1 : Shell)
    (h : (createForkParent env spawnPid bg commandLine st).state? = some st1) :
    st1.sigint = st.sigint ∧ st1.sigtstp = st.sigtstp := by
  unfold createForkParent at h
  cases bg with
  | true =>
    by_cases hroom : st.pidIndex < 100
    · cases hw : env.waitBg <;>
        simp [hroom, hw, waitpid, Flow.state?] at h <;> subst h <;> exact ⟨rfl, rfl⟩
    · simp [hroom, Flow.state?] at h
  | false =>
    cases hb : env.blockOk with
    | false =>
      simp [hb, Flow.state?, perror] at h
      subst h; exact ⟨rfl, rfl⟩
    | true =>
      cases hw : env.waitFg with
      | pending => simp [hb, hw, waitpid, Flow.state?] at h; subst h; exact ⟨rfl, rfl⟩
      | failed => simp [hb, hw, waitpid, Flow.state?] at h; subst h; exact ⟨rfl, rfl⟩
      | reaped status =>
        cases hu : env.unblockOk with
        | false =>
          simp [hb, hw, hu, waitpid, Flow.state?, perror] at h
          subst h; exact ⟨rfl, rfl⟩
        | true =>
          cases hs : WIFSIGNALED status <;>
            simp [hb, hw, hu, hs, waitpid, Flow.state?] at h <;> subst h <;> exact ⟨rfl, rfl⟩

/-- In the child, `createFork` is `executeCommand` in the child's state,
followed by the fall into the `default:` arm should it return. -/
theorem createFork_child_unfold (env : Env) (commandLine commandLine1 : Tokens)
    (lastIndex : Int) (terminateFgChild ignoreSIGTSTP : Disposition) (st : Shell) (bg : Bool)
    (hfork : env.forkResult = 0)
    (hbg : isBackgroundProcess commandLine lastIndex st = some (bg, commandLine1, st)) :
    createFork env commandLine lastIndex terminateFgChild ignoreSIGTSTP st =
      fallThrough env bg
        (executeCommand env.openOk env.execOk commandLine1 bg
          (childState terminateFgChild ignoreSIGTSTP bg st)) := by
  rw [createFork, hbg]
  simp only [hfork, if_true]
  change (match executeCommand env.openOk env.execOk commandLine1 bg
      (childState terminateFgChild ignoreSIGTSTP bg st) with
    | Flow.returned (commandLine2, st4) => createForkParent env 0 bg commandLine2 st4
    | other => other) = _
  cases executeCommand env.openOk env.execOk commandLine1 bg
      (childState terminateFgChild ignoreSIGTSTP bg st) with
  | returned x => obtain ⟨c, s1⟩ := x; simp only [fallThrough, hfork]
  | exited code a => rfl
  | replaced file argv a => rfl
  | undefined => rfl
  | outOfFuel => rfl

/-- One iteration of the loop of `checkBackgroundStatus` changes neither a
signal disposition nor the mode. -/
theorem checkBackgroundStatusStep_dispositions (probe : Nat → WaitResult) (st : Shell)
    (i : Nat) :
    (checkBackgroundStatusStep probe st i).sigint = st.sigint ∧
    (checkBackgroundStatusStep probe st i).sigtstp = st.sigtstp ∧
    (checkBackgroundStatusStep probe st i).isForegroundOnly = st.isForegroundOnly := by
  unfold checkBackgroundStatusStep
  by_cases h : st.pidArray.getD i 0 ≠ 0
  · rw [if_pos h]
    cases hp : probe i with
    | pending => simp [waitpid]
    | failed => simp [waitpid]
    | reaped status =>
      simp only [waitpid]
      split_ifs <;> simp
  · rw [if_neg h]
    exact ⟨rfl, rfl, rfl⟩

theorem checkBackgroundStatus_dispositions (probe : Nat → WaitResult) (st : Shell) :
    (checkBackgroundStatus probe st).sigint = st.sigint ∧
    (checkBackgroundStatus probe st).sigtstp = st.sigtstp ∧
    (checkBackgroundStatus probe st).isForegroundOnly = st.isForegroundOnly := by
  unfold checkBackgroundStatus
  generalize List.range 100 = l
  induction l generalizing st with
  | nil => exact ⟨rfl, rfl, rfl⟩
  | cons i l ih =>
    rw [List.foldl_cons]
    obtain ⟨h1, h2, h3⟩ := ih (checkBackgroundStatusStep probe st i)
    obtain ⟨g1, g2, g3⟩ := checkBackgroundStatusStep_dispositions probe st i
    exact ⟨h1.trans g1, h2.trans g2, h3.trans g3⟩

/-- The part of a pass of the loop of `printShellPrompt` before
`variableExpansion` changes neither a signal disposition nor the mode, and
leaves `askInput` false for a line with a character that is no white space. -/
theorem beforeExpansion_frame (r : Round) (st : Shell) :
    (beforeExpansion r st).sigint = st.sigint ∧
    (beforeExpansion r st).sigtstp = st.sigtstp ∧
    (beforeExpansion r st).isForegroundOnly = st.isForegroundOnly ∧
    (r.line.any (fun c => !isspace c) = true → (beforeExpansion r st).askInput = false) := by
  obtain ⟨h1, h2, h3⟩ := checkBackgroundStatus_dispositions r.probe { st with askInput := true }
  unfold beforeExpansion checkEmptyLine
  generalize checkBackgroundStatus r.probe { st with askInput := true } = cbs at h1 h2 h3 ⊢
  have e1 : cbs.sigint = st.sigint := h1
  have e2 : cbs.sigtstp = st.sigtstp := h2
  have e3 : cbs.isForegroundOnly = st.isForegroundOnly := h3
  by_cases hl : r.line.any (fun c => !isspace c) = true
  · rw [if_pos hl]
    exact ⟨e1, e2, e3, fun _ => rfl⟩
  · rw [if_neg hl]
    exact ⟨e1, e2, e3, fun h => absurd h hl⟩

/-- The loop of `variableExpansion` changes neither a signal disposition, nor
the mode, nor `askInput`. -/
theorem variableExpansionLoop_frame (pidString : List Char) (fuel : Nat) :
    ∀ (charPtr buffSizeTrack : Nat) (lineEntered line1 : List Char) (st st1 : Shell),
      variableExpansionLoop pidString fuel charPtr buffSizeTrack lineEntered st =
        some (line1, st1) →
      st1.sigint = st.sigint ∧ st1.sigtstp = st.sigtstp ∧
      st1.isForegroundOnly = st.isForegroundOnly ∧ st1.askInput = st.askInput := by
  induction fuel with
  | zero =>
    intro charPtr buffSizeTrack lineEntered line1 st st1 h
    simp [variableExpansionLoop] at h
  | succ fuel ih =>
    intro charPtr buffSizeTrack lineEntered line1 st st1 h
    rw [variableExpansionLoop] at h
    cases hs : strstrDollars (lineEntered.drop charPtr) with
    | none =>
      rw [hs] at h
      simp only [Option.some.injEq, Prod.mk.injEq] at h
      obtain ⟨-, rfl⟩ := h
      exact ⟨rfl, rfl, rfl, rfl⟩
    | some k =>
      rw [hs] at h
      by_cases hb : buffSizeTrack + pidString.length > 2048
      · simp only [if_pos hb, Option.some.injEq, Prod.mk.injEq] at h
        obtain ⟨-, rfl⟩ := h
        exact ⟨rfl, rfl, rfl, rfl⟩
      · simp only [if_neg hb] at h
        exact ih _ _ _ _ _ _ h

theorem variableExpansion_frame (shellPid : Int) (lineEntered line1 : List Char)
    (numCharsEntered n : Int) (st st1 : Shell)
    (h : variableExpansion shellPid lineEntered numCharsEntered st = some (line1, n, st1)) :
    st1.sigint = st.sigint ∧ st1.sigtstp = st.sigtstp ∧
    st1.isForegroundOnly = st.isForegroundOnly ∧ st1.askInput = st.askInput := by
  unfold variableExpansion at h
  cases hs : strstrDollars lineEntered with
  | none =>
    rw [hs] at h
    simp only [Option.some.injEq, Prod.mk.injEq] at h
    obtain ⟨-, -, rfl⟩ := h
    exact ⟨rfl, rfl, rfl, rfl⟩
  | some k =>
    rw [hs] at h
    cases hl : variableExpansionLoop (fmtInt shellPid).data (lineEntered.length + 1) 0
        lineEntered.length lineEntered st with
    | none => rw [hl] at h; simp at h
    | some x =>
      obtain ⟨l, s1⟩ := x
      rw [hl] at h
      simp only [Option.some.injEq, Prod.mk.injEq] at h
      obtain ⟨-, -, rfl⟩ := h
      exact variableExpansionLoop_frame _ _ _ _ _ _ _ _ hl

/-- One pass of the loop of `printShellPrompt`, unfolded up to the call of
`variableExpansion`. -/
theorem promptRound_unfold (r : Round) (st : Shell) :
    promptRound r st =
      match variableExpansion r.shellPid r.line (r.line.length : Int)
          (beforeExpansion r st) with
      | none => Flow.outOfFuel
      | some (line1, numCharsEntered, st4) =>
        if (if numCharsEntered > 2048 ∨ numArguments r.line > 512 ∨
              line1.head? = some '#' then
            { st4 with askInput := true } else st4).askInput = false then
          match tokenizeString (line1.takeWhile (fun c => c != '\n')) with
          | none => Flow.undefined
          | some commandLine =>
            builtInFunctions r.env r.home r.chdirOk commandLine (numArguments r.line)
              terminateFgChild ignoreSIGTSTP
              (if numCharsEntered > 2048 ∨ numArguments r.line > 512 ∨
                  line1.head? = some '#' then
                { st4 with askInput := true } else st4)
        else
          Flow.returned ([],
            if numCharsEntered > 2048 ∨ numArguments r.line > 512 ∨
                line1.head? = some '#' then
              { st4 with askInput := true } else st4) := by
  rfl

/-- An accepted line: the pass calls `builtInFunctions`, with the records
`terminateFgChild` and `ignoreSIGTSTP`, in the state `variableExpansion`
left. -/
theorem promptRound_command (r : Round) (st : Shell) (line1 : List Char)
    (numCharsEntered : Int) (st4 : Shell) (commandLine : Tokens)
    (hexp : variableExpansion r.shellPid r.line (r.line.length : Int)
        (beforeExpansion r st) = some (line1, numCharsEntered, st4))
    (hask : st4.askInput = false)
    (hvalid : ¬ (numCharsEntered > 2048 ∨ numArguments r.line > 512 ∨
      line1.head? = some '#'))
    (htokens : tokenizeString (line1.takeWhile (fun c => c != '\n')) = some commandLine) :
    promptRound r st =
      builtInFunctions r.env r.home r.chdirOk commandLine (numArguments r.line)
        terminateFgChild ignoreSIGTSTP st4 := by
  rw [promptRound_unfold, hexp]
  simp only [if_neg hvalid, hask, if_true, htokens]

/-- Outside the child, `builtInFunctions` changes no signal disposition. -/
theorem builtInFunctions_dispositions (env : Env) (home : Option String) (chdirOk : Bool)
    (commandLine : Tokens) (lastIndex : Int) (d1 d2 : Disposition) (st st1 : Shell)
    (hfork : env.forkResult ≠ 0)
    (h : (builtInFunctions env home chdirOk commandLine lastIndex d1 d2 st).state?
      = some st1) :
    st1.sigint = st.sigint ∧ st1.sigtstp = st.sigtstp := by
  unfold builtInFunctions at h
  cases h0 : commandLine[0]? with
  | none => rw [h0] at h; simp [Flow.state?] at h
  | some t =>
    cases t with
    | none => rw [h0] at h; simp [Flow.state?] at h
    | some first =>
      rw [h0] at h
      simp only at h
      by_cases he : first = "exit"
      · rw [if_pos he] at h
        simp only [Flow.state?, Option.some.injEq] at h
        subst h
        rw [killBackgroundProcesses_eq]
        exact ⟨rfl, rfl⟩
      · rw [if_neg he] at h
        by_cases hc : first = "cd"
        · rw [if_pos hc] at h
          unfold changeDirectory at h
          cases h1 : commandLine[1]? with
          | none => rw [h1] at h; simp [Flow.state?] at h
          | some t1 =>
            cases t1 with
            | none =>
              rw [h1] at h
              simp only [Flow.state?, Option.some.injEq] at h
              subst h
              exact ⟨rfl, rfl⟩
            | some dir =>
              rw [h1] at h
              simp only at h
              split_ifs at h <;>
                simp only [Flow.state?, Option.some.injEq, perror] at h <;>
                subst h <;> exact ⟨rfl, rfl⟩
        · rw [if_neg hc] at h
          by_cases hs : first = "status"
          · rw [if_pos hs] at h
            simp only [Flow.state?, Option.some.injEq] at h
            subst h
            unfold getStatus
            split_ifs <;> exact ⟨rfl, rfl⟩
          · rw [if_neg hs] at h
            unfold createFork at h
            unfold isBackgroundProcess at h
            by_cases hneg : lastIndex < 0
            · simp [hneg, Flow.state?] at h
            · rw [if_neg hneg] at h
              cases hl : commandLine[lastIndex.toNat]? with
              | none => rw [hl] at h; simp [Flow.state?] at h
              | some t2 =>
                cases t2 with
                | none => rw [hl] at h; simp [Flow.state?] at h
                | some tok =>
                  rw [hl] at h
                  simp only at h
                  by_cases hm1 : env.forkResult = -1
                  · split_ifs at h <;>
                      simp only [Flow.state?, Option.some.injEq, perror] at h <;>
                      subst h <;> exact ⟨rfl, rfl⟩
                  · split_ifs at h <;>
                      exact createForkParent_dispositions _ _ _ _ _ _ h

/-- Outside the child, one pass of the loop of `printShellPrompt` changes no
signal disposition. -/
theorem promptRound_dispositions (r : Round) (st st1 : Shell)
    (hfork : r.env.forkResult ≠ 0)
    (h : (promptRound r st).state? = some st1) :
    st1.sigint = st.sigint ∧ st1.sigtstp = st.sigtstp := by
  obtain ⟨b1, b2, -, -⟩ := beforeExpansion_frame r st
  rw [promptRound_unfold] at h
  cases hexp : variableExpansion r.shellPid r.line (r.line.length : Int)
      (beforeExpansion r st) with
  | none => rw [hexp] at h; simp [Flow.state?] at h
  | some x =>
    obtain ⟨line1, n, st4⟩ := x
    obtain ⟨v1, v2, -, -⟩ := variableExpansion_frame _ _ _ _ _ _ _ hexp
    rw [hexp] at h
    simp only at h
    generalize hg : (if n > 2048 ∨ numArguments r.line > 512 ∨ line1.head? = some '#' then
      { st4 with askInput := true } else st4) = st5 at h
    have e1 : st5.sigint = st4.sigint := by
      rw [← hg]; split_ifs <;> rfl
    have e2 : st5.sigtstp = st4.sigtstp := by
      rw [← hg]; split_ifs <;> rfl
    by_cases ha : st5.askInput = false
    · rw [if_pos ha] at h
      cases ht : tokenizeString (line1.takeWhile (fun c => c != '\n')) with
      | none => rw [ht] at h; simp [Flow.state?] at h
      | some commandLine =>
        rw [ht] at h
        obtain ⟨g1, g2⟩ := builtInFunctions_dispositions _ _ _ _ _ _ _ _ _ hfork h
        exact ⟨g1.trans (e1.trans (v1.trans b1)), g2.trans (e2.trans (v2.trans b2))⟩
    · rw [if_neg ha] at h
      simp only [Flow.state?, Option.some.injEq] at h
      subst h
      exact ⟨e1.trans (v1.trans b1), e2.trans (v2.trans b2)⟩

/-- The loop of `printShellPrompt` is one pass followed by `afterRound`. -/
theorem promptLoop_cons (r : Round) (rest : List Round) (st : Shell) :
    promptLoop (r :: rest) st = afterRound rest (promptRound r st) := by
  rw [promptLoop]
  cases promptRound r st with
  | returned x => rfl
  | exited code a => rfl
  | replaced file argv a => rfl
  | undefined => rfl
  | outOfFuel => rfl

/-- Outside the child, the loop of `printShellPrompt` changes no signal
disposition. -/
theorem promptLoop_dispositions (rounds : List Round) :
    ∀ st st1 : Shell, (∀ r ∈ rounds, r.env.forkResult ≠ 0) →
      (promptLoop rounds st).state? = some st1 →
      st1.sigint = st.sigint ∧ st1.sigtstp = st.sigtstp := by
  induction rounds with
  | nil => intro st st1 _ h; simp [promptLoop, Flow.state?] at h
  | cons r rest ih =>
    intro st st1 hall h
    have hr : r.env.forkResult ≠ 0 := hall r (List.mem_cons_self _ _)
    have hrest : ∀ r0 ∈ rest, r0.env.forkResult ≠ 0 :=
      fun r0 h0 => hall r0 (List.mem_cons_of_mem _ h0)
    rw [promptLoop_cons] at h
    cases hp : promptRound r st with
    | returned x =>
      obtain ⟨commandLine, s1⟩ := x
      obtain ⟨p1, p2⟩ := promptRound_dispositions r st s1 hr (by rw [hp]; rfl)
      rw [hp] at h
      simp only [afterRound] at h
      by_cases ha : s1.askInput = true
      · rw [if_pos ha] at h
        obtain ⟨q1, q2⟩ := ih s1 st1 hrest h
        exact ⟨q1.trans p1, q2.trans p2⟩
      · rw [if_neg ha] at h
        simp only [Flow.state?, Option.some.injEq] at h
        subst h
        exact ⟨p1, p2⟩
    | exited code a =>
      rw [hp] at h
      exact promptRound_dispositions r st st1 hr (by rw [hp]; exact h)
    | replaced file argv a => rw [hp] at h; simp [afterRound, Flow.state?] at h
    | undefined => rw [hp] at h; simp [afterRound, Flow.state?] at h
    | outOfFuel => rw [hp] at h; simp [afterRound, Flow.state?] at h

/-- C15.  `printShellPrompt` on a pass whose line is accepted (a character that
is no white space, within the limits, not a comment) and starts a command that
is no built-in, seen in the child (`fork` returned 0).  The shell state `st4` in
which `createFork` is called has SIGINT ignored and SIGTSTP handled by
`catchSIGTSTP`, as `printShellPrompt` installed them, and the mode of the
caller.  `printShellPrompt` is then `executeCommand` called in the state `stc`,
which is `st4` with the child's dispositions: SIGINT at its default exactly when
the launch is effective-foreground (`isBackgroundProcess` returned false, which
includes "&" in foreground-only mode) and ignored, as inherited, for an
effective-background child; SIGTSTP ignored in both cases.  In the shell itself
(every pass in the parent or with `fork` failing), in whatever state
`printShellPrompt` returns or exits, SIGINT is ignored and SIGTSTP has
`catchSIGTSTP` installed. -/
theorem printShellPrompt_child_dispositions (r : Round) (rest : List Round) (st : Shell)
    (line1 : List Char) (numCharsEntered : Int) (st4 : Shell) (commandLine : Tokens)
    (first tok : String)
    (hline : r.line.any (fun c => !isspace c) = true)
    (hexp : variableExpansion r.shellPid r.line (r.line.length : Int)
        (beforeExpansion r (installSignals st)) = some (line1, numCharsEntered, st4))
    (hvalid : ¬ (numCharsEntered > 2048 ∨ numArguments r.line > 512 ∨
      line1.head? = some '#'))
    (htokens : tokenizeString (line1.takeWhile (fun c => c != '\n')) = some commandLine)
    (hfirst : commandLine[0]? = some (some first))
    (hcommand : first ≠ "exit" ∧ first ≠ "cd" ∧ first ≠ "status")
    (hidx : 0 ≤ numArguments r.line)
    (htok : commandLine[(numArguments r.line).toNat]? = some (some tok))
    (hfork : r.env.forkResult = 0) :
    ∃ bg commandLine1 stc,
      st4.sigint = Disposition.SIG_IGN ∧
      st4.sigtstp = Disposition.catchSIGTSTP ∧
      st4.isForegroundOnly = st.isForegroundOnly ∧
      isBackgroundProcess commandLine (numArguments r.line) st4 =
        some (bg, commandLine1, st4) ∧
      (bg = true ↔ tok = "&" ∧ st.isForegroundOnly = false) ∧
      stc = childState terminateFgChild ignoreSIGTSTP bg st4 ∧
      printShellPrompt (r :: rest) st =
        afterRound rest
          (fallThrough r.env bg
            (executeCommand r.env.openOk r.env.execOk commandLine1 bg stc)) ∧
      (stc.sigint = Disposition.SIG_DFL ↔ bg = false) ∧
      (bg = true → stc.sigint = Disposition.SIG_IGN) ∧
      stc.sigtstp = Disposition.SIG_IGN ∧
      (∀ (rounds : List Round) (st0 st1 : Shell),
        (∀ r0 ∈ rounds, r0.env.forkResult ≠ 0) →
        (printShellPrompt rounds st0).state? = some st1 →
        st1.sigint = Disposition.SIG_IGN ∧ st1.sigtstp = Disposition.catchSIGTSTP) := by
  obtain ⟨b1, b2, b3, b4⟩ := beforeExpansion_frame r (installSignals st)
  obtain ⟨v1, v2, v3, v4⟩ := variableExpansion_frame _ _ _ _ _ _ _ hexp
  have hint : st4.sigint = Disposition.SIG_IGN := v1.trans b1
  have htstp : st4.sigtstp = Disposition.catchSIGTSTP := v2.trans b2
  have hmode : st4.isForegroundOnly = st.isForegroundOnly := v3.trans b3
  have hask : st4.askInput = false := v4.trans (b4 hline)
  have hbg := isBackgroundProcess_eq commandLine (numArguments r.line) tok st4 hidx htok
  have hround := promptRound_command r (installSignals st) line1 numCharsEntered st4
    commandLine hexp hask hvalid htokens
  have hbuilt : builtInFunctions r.env r.home r.chdirOk commandLine (numArguments r.line)
      terminateFgChild ignoreSIGTSTP st4 =
      createFork r.env commandLine (numArguments r.line) terminateFgChild ignoreSIGTSTP
        st4 := by
    rw [builtInFunctions, hfirst]
    simp only [if_neg hcommand.1, if_neg hcommand.2.1, if_neg hcommand.2.2]
  refine ⟨_, _, _, hint, htstp, hmode, hbg, ?_, rfl, ?_, ?_, ?_, ?_, ?_⟩
  · rw [hmode]
    by_cases hamp : tok = "&" <;> cases hm : st.isForegroundOnly <;> simp [hamp]
  · rw [printShellPrompt, promptLoop_cons, hround, hbuilt,
      createFork_child_unfold r.env _ _ _ terminateFgChild ignoreSIGTSTP st4 _ hfork hbg]
  · cases hb : (decide (tok = "&") && !st4.isForegroundOnly) <;>
      simp [childState, terminateFgChild, hint]
  · intro hb
    simp [childState, hb, hint]
  · simp [childState, ignoreSIGTSTP]
  · intro rounds st0 st1 hall h
    exact promptLoop_dispositions rounds (installSignals st0) st1 hall h

/-- Witness for C15: `printShellPrompt` called in the initial state, the user
typing `sleep 5 &`, seen in the child. -/
theorem printShellPrompt_child_dispositions_witness :
    ∃ bg commandLine1 stc,
      (bg = true ↔ "&" = "&" ∧ Shell.initial.isForegroundOnly = false) ∧
      stc = childState terminateFgChild ignoreSIGTSTP bg
        (beforeExpansion sleepInBackground (installSignals Shell.initial)) ∧
      printShellPrompt (sleepInBackground :: []) Shell.initial =
        afterRound []
          (fallThrough sleepInBackground.env bg
            (executeCommand sleepInBackground.env.openOk sleepInBackground.env.execOk
              commandLine1 bg stc)) ∧
      (bg = true → stc.sigint = Disposition.SIG_IGN) ∧
      stc.sigtstp = Disposition.SIG_IGN := by
  obtain ⟨bg, commandLine1, stc, -, -, -, -, h5, h6, h7, -, h9, h10, -⟩ :=
    printShellPrompt_child_dispositions sleepInBackground [] Shell.initial
      "sleep 5 &\n".data 10
      (beforeExpansion sleepInBackground (installSignals Shell.initial))
      [some "sleep", some "5", some "&", none] "sleep" "&"
      (by rfl) (by rfl) (by decide) (by rfl) (by rfl) (by decide) (by decide) (by rfl)
      (by rfl)
  exact ⟨bg, commandLine1, stc, h5, h6, h7, h9, h10⟩

/-- The same pass evaluated: the child of `sleep 5 &` replaces its image by
`sleep` with SIGINT and SIGTSTP ignored, and the child of `sleep 5`, in the
same shell, with SIGINT at its default and SIGTSTP ignored. -/
theorem printShellPrompt_child_evaluated :
    (∃ commandLine1 stc,
      printShellPrompt [sleepInBackground] Shell.initial =
        Flow.replaced "sleep" ["sleep", "5"] (commandLine1, stc) ∧
      stc.sigint = Disposition.SIG_IGN ∧ stc.sigtstp = Disposition.SIG_IGN) ∧
    (∃ commandLine1 stc,
      printShellPrompt [{ sleepInBackground with line := "sleep 5\n".data }] Shell.initial =
        Flow.replaced "sleep" ["sleep", "5"] (commandLine1, stc) ∧
      stc.sigint = Disposition.SIG_DFL ∧ stc.sigtstp = Disposition.SIG_IGN) :=
  ⟨⟨_, _, by rfl, by rfl, by rfl⟩, ⟨_, _, by rfl, by rfl, by rfl⟩⟩

/-! ## C12: how many jobs the table takes -/

/-- One iteration of the loop of `checkBackgroundStatus` keeps `pidIndex`,
`isForegroundOnly` and the length of the table, whatever the probe answers. -/
theorem checkBackgroundStatusStep_frame (probe : Nat → WaitResult) (st : Shell) (i : Nat) :
    (checkBackgroundStatusStep probe st i).pidIndex = st.pidIndex ∧
    (checkBackgroundStatusStep probe st i).isForegroundOnly = st.isForegroundOnly ∧
    (checkBackgroundStatusStep probe st i).pidArray.length = st.pidArray.length := by
  unfold checkBackgroundStatusStep
  by_cases h : st.pidArray.getD i 0 ≠ 0
  · rw [if_pos h]
    cases hp : probe i with
    | pending => simp [waitpid]
    | failed => simp [waitpid]
    | reaped status =>
      simp only [waitpid]
      split_ifs <;> simp
  · rw [if_neg h]
    exact ⟨rfl, rfl, rfl⟩

theorem checkBackgroundStatus_frame (probe : Nat → WaitResult) (st : Shell) :
    (checkBackgroundStatus probe st).pidIndex = st.pidIndex ∧
    (checkBackgroundStatus probe st).isForegroundOnly = st.isForegroundOnly ∧
    (checkBackgroundStatus probe st).pidArray.length = st.pidArray.length := by
  unfold checkBackgroundStatus
  generalize List.range 100 = l
  induction l generalizing st with
  | nil => exact ⟨rfl, rfl, rfl⟩
  | cons i l ih =>
    rw [List.foldl_cons]
    obtain ⟨h1, h2, h3⟩ := ih (checkBackgroundStatusStep probe st i)
    obtain ⟨g1, g2, g3⟩ := checkBackgroundStatusStep_frame probe st i
    exact ⟨h1.trans g1, h2.trans g2, h3.trans g3⟩

/-- A background launch as an operation, with room in the table. -/
theorem runJobOp_launch (pid : Int) (answer : WaitResult) (st : Shell)
    (hmode : st.isForegroundOnly = false) (hpid : 0 < pid) (hroom : st.pidIndex < 100) :
    runJobOp (JobOp.launch pid answer) st =
      some { st with
        out := st.out ++ ["background pid is " ++ fmtInt pid ++ "\n"]
        pidArray := st.pidArray.set st.pidIndex pid
        pidIndex := st.pidIndex + 1
        waited := st.waited ++ [pid]
        childExitMethod := storedStatus answer st.childExitMethod } := by
  rw [runJobOp, createFork_background_eq (backgroundEnv pid answer)
    [some "sleep", some "&", none] 1 terminateFgChild ignoreSIGTSTP st (by decide) (by rfl)
    hmode hpid hroom]
  rfl

/-- A background launch as an operation, the table being full: the store is
past the array. -/
theorem runJobOp_launch_full (pid : Int) (answer : WaitResult) (st : Shell)
    (hmode : st.isForegroundOnly = false) (hpid : 0 < pid) (hfull : ¬ st.pidIndex < 100) :
    createFork (backgroundEnv pid answer) [some "sleep", some "&", none] 1
        terminateFgChild ignoreSIGTSTP st = Flow.undefined ∧
    runJobOp (JobOp.launch pid answer) st = none := by
  have h1 : pid ≠ -1 := by omega
  have h0 : pid ≠ 0 := by omega
  have hc : createFork (backgroundEnv pid answer) [some "sleep", some "&", none] 1
      terminateFgChild ignoreSIGTSTP st = Flow.undefined := by
    rw [createFork, isBackgroundProcess_eq [some "sleep", some "&", none] 1 "&" st
      (by decide) (by rfl)]
    simp [hmode, h1, h0, backgroundEnv, createForkParent, hfull]
  exact ⟨hc, by rw [runJobOp, hc]⟩

/-- Along a sequence of operations with room for all its launches, every
operation returns, and `pidIndex` grows by one with each launch and never
shrinks. -/
theorem runJobOps_pidIndex (ops : List JobOp) :
    ∀ st : Shell, st.isForegroundOnly = false → st.pidArray.length = 100 →
      PositivePids ops → st.pidIndex + launches ops ≤ 100 →
      ∃ st1, runJobOps ops st = some st1 ∧ st1.pidIndex = st.pidIndex + launches ops ∧
        st1.pidArray.length = 100 ∧ st1.isForegroundOnly = false := by
  induction ops with
  | nil => intro st hm hl _ _; exact ⟨st, rfl, rfl, hl, hm⟩
  | cons op ops ih =>
    intro st hm hl hpos hroom
    cases op with
    | launch pid answer =>
      have hroom1 : st.pidIndex < 100 := by simp only [launches] at hroom; omega
      obtain ⟨st1, h1, h2, h3, h4⟩ := ih
        { st with
          out := st.out ++ ["background pid is " ++ fmtInt pid ++ "\n"]
          pidArray := st.pidArray.set st.pidIndex pid
          pidIndex := st.pidIndex + 1
          waited := st.waited ++ [pid]
          childExitMethod := storedStatus answer st.childExitMethod }
        hm (by simp [hl]) hpos.2 (by simp only [launches] at hroom ⊢; omega)
      refine ⟨st1, ?_, ?_, h3, h4⟩
      · rw [runJobOps, runJobOp_launch pid answer st hm hpos.1 hroom1]
        exact h1
      · rw [h2]; simp only [launches]; omega
    | reap probe =>
      obtain ⟨g1, g2, g3⟩ := checkBackgroundStatus_frame probe st
      obtain ⟨st1, h1, h2, h3, h4⟩ := ih (checkBackgroundStatus probe st)
        (g2.trans hm) (g3.trans hl) hpos (by rw [g1]; exact hroom)
      exact ⟨st1, h1, by rw [h2, g1]; rfl, h3, h4⟩
    | killAll =>
      obtain ⟨st1, h1, h2, h3, h4⟩ := ih (killBackgroundProcesses st)
        (by rw [killBackgroundProcesses_eq]; exact hm)
        (by rw [killBackgroundProcesses_eq]; exact hl) hpos
        (by rw [killBackgroundProcesses_eq]; exact hroom)
      exact ⟨st1, h1, by rw [h2, killBackgroundProcesses_eq]; rfl, h3, h4⟩

theorem mem_probedPids_of (pidArray : List Int) (n i : Nat) (hi : i < n)
    (h0 : pidArray.getD i 0 ≠ 0) : pidArray.getD i 0 ∈ probedPids pidArray n := by
  unfold probedPids
  rw [List.mem_map]
  refine ⟨i, ?_, rfl⟩
  rw [List.mem_filter, List.mem_range]
  exact ⟨hi, decide_eq_true h0⟩

/-- The first hundred launches.  After any sequence of launches, reaps and
kills with fewer than 100 launches, `pidIndex` is the number of launches so
far, and a further launch returns with its pid stored in the slot of that
index (below 100) and `pidIndex` one higher; the pid is then among the pids a
later `checkBackgroundStatus` passes to `waitpid` (the calls it adds to those
made before are those for the non-zero slots, in slot order) and among those
`killBackgroundProcesses` signals. -/
theorem job_table_first_hundred (ops : List JobOp) (pid : Int) (answer : WaitResult)
    (hpos : PositivePids ops) (hpid : 0 < pid) (hcount : launches ops < 100) :
    ∃ st st1,
      runJobOps ops Shell.initial = some st ∧
      st.pidIndex = launches ops ∧
      runJobOp (JobOp.launch pid answer) st = some st1 ∧
      st1.pidIndex = launches ops + 1 ∧
      st1.pidArray.getD (launches ops) 0 = pid ∧
      pid ∈ probedPids st1.pidArray 100 ∧
      (∀ probe, ValidProbe probe →
        (checkBackgroundStatus probe st1).waited =
          st1.waited ++ probedPids st1.pidArray 100) ∧
      pid ∈ (killBackgroundProcesses st1).killed := by
  obtain ⟨st, h1, h2, h3, h4⟩ := runJobOps_pidIndex ops Shell.initial rfl (by rfl) hpos
    (by show 0 + launches ops ≤ 100; omega)
  have hidx : st.pidIndex = launches ops := by
    rw [h2]; show 0 + launches ops = launches ops; omega
  have hroom : st.pidIndex < 100 := by omega
  have hget : (st.pidArray.set st.pidIndex pid).getD (launches ops) 0 = pid := by
    rw [← hidx]; exact getD_set_self _ _ _ (by omega)
  have hmem : pid ∈ probedPids (st.pidArray.set st.pidIndex pid) 100 := by
    have h := mem_probedPids_of (st.pidArray.set st.pidIndex pid) 100 (launches ops) hcount
      (by rw [hget]; omega)
    rw [hget] at h
    exact h
  refine ⟨st, _, h1, hidx, runJobOp_launch pid answer st h4 hpid hroom, ?_, hget, hmem, ?_, ?_⟩
  · show st.pidIndex + 1 = launches ops + 1
    rw [hidx]
  · intro probe hv
    obtain ⟨pa, status, he, -, -⟩ := checkBackgroundStatus_loop probe hv
      { st with
        out := st.out ++ ["background pid is " ++ fmtInt pid ++ "\n"]
        pidArray := st.pidArray.set st.pidIndex pid
        pidIndex := st.pidIndex + 1
        waited := st.waited ++ [pid]
        childExitMethod := storedStatus answer st.childExitMethod } 100
    have he1 : checkBackgroundStatus probe _ = _ := he
    rw [he1]
  · rw [killBackgroundProcesses_eq]
    exact List.mem_append_right _ hmem

/-- An instance of the preceding theorem: two jobs launched, the first
collected, then a third launch. -/
theorem job_table_first_hundred_witness :
    ∃ st st1,
      runJobOps [JobOp.launch 1234 WaitResult.pending, JobOp.launch 1250 WaitResult.pending,
        JobOp.reap exitedOne] Shell.initial = some st ∧
      st.pidIndex = 2 ∧
      runJobOp (JobOp.launch 1300 WaitResult.pending) st = some st1 ∧
      st1.pidIndex = 3 ∧
      st1.pidArray.getD 2 0 = 1300 ∧
      (1300 : Int) ∈ (killBackgroundProcesses st1).killed := by
  obtain ⟨st, st1, h1, h2, h3, h4, h5, -, -, h8⟩ :=
    job_table_first_hundred
      [JobOp.launch 1234 WaitResult.pending, JobOp.launch 1250 WaitResult.pending,
        JobOp.reap exitedOne] 1300 WaitResult.pending
      ⟨by decide, by decide, trivial⟩ (by decide) (by decide)
  exact ⟨st, st1, h1, h2, h3, h4, h5, h8⟩

theorem eq_replicate_zero (l : List Int) (n : Nat) (hlen : l.length = n)
    (h : ∀ i, l.getD i 0 = 0) : l = List.replicate n 0 := by
  rw [List.eq_replicate_iff]
  refine ⟨hlen, ?_⟩
  intro b hb
  obtain ⟨i, hi, rfl⟩ := List.getElem_of_mem hb
  have := h i
  rw [List.getD_eq_getElem?_getD, List.getElem?_eq_getElem hi] at this
  exact this

theorem validProbe_allExited : ValidProbe (fun _ => WaitResult.reaped 0) := by
  intro i status h
  injection h with h
  subst h
  left; rfl

/-- One round of `churn` from an empty table: the job is registered and
collected, the table is empty again, and `pidIndex` is one higher. -/
theorem churn_state (n : Nat) :
    ∀ st : Shell, st.isForegroundOnly = false → st.pidArray = List.replicate 100 0 →
      st.pidIndex + n ≤ 100 →
      ∃ st1, runJobOps (churn n) st = some st1 ∧ st1.pidIndex = st.pidIndex + n ∧
        st1.pidArray = List.replicate 100 0 ∧ st1.isForegroundOnly = false := by
  induction n with
  | zero => intro st hm hp _; exact ⟨st, rfl, rfl, hp, hm⟩
  | succ n ih =>
    intro st hm hp hroom
    have hroom1 : st.pidIndex < 100 := by omega
    obtain ⟨pa, status, he, hlen, hpa⟩ := checkBackgroundStatus_loop
      (fun _ => WaitResult.reaped 0) validProbe_allExited
      { st with
        out := st.out ++ ["background pid is " ++ fmtInt 1234 ++ "\n"]
        pidArray := st.pidArray.set st.pidIndex 1234
        pidIndex := st.pidIndex + 1
        waited := st.waited ++ [1234]
        childExitMethod := storedStatus WaitResult.pending st.childExitMethod } 100
    have he1 : checkBackgroundStatus (fun _ => WaitResult.reaped 0) _ = _ := he
    have hzero : pa = List.replicate 100 0 := by
      apply eq_replicate_zero
      · rw [hlen]; simp [hp]
      · intro i
        rw [hpa i]
        split_ifs with hc
        · rfl
        · show (st.pidArray.set st.pidIndex 1234).getD i 0 = 0
          by_cases hik : i = st.pidIndex
          · exfalso
            apply hc
            refine ⟨by omega, ?_⟩
            have hg : (st.pidArray.set st.pidIndex 1234).getD i 0 = 1234 := by
              rw [hik]; exact getD_set_self _ _ _ (by rw [hp]; simpa using hroom1)
            show (tracked (st.pidArray.set st.pidIndex 1234) i &&
              isReaped (WaitResult.reaped 0)) = true
            unfold tracked
            rw [hg]; rfl
          · rw [getD_set_other _ _ _ _ hik, hp]
            exact getD_replicate_zero 100 i
    obtain ⟨st1, h1, h2, h3, h4⟩ := ih
      (checkBackgroundStatus (fun _ => WaitResult.reaped 0)
        { st with
          out := st.out ++ ["background pid is " ++ fmtInt 1234 ++ "\n"]
          pidArray := st.pidArray.set st.pidIndex 1234
          pidIndex := st.pidIndex + 1
          waited := st.waited ++ [1234]
          childExitMethod := storedStatus WaitResult.pending st.childExitMethod })
      (by rw [he1]; exact hm) (by rw [he1]; exact hzero)
      (by rw [he1]; show st.pidIndex + 1 + n ≤ 100; omega)
    refine ⟨st1, ?_, ?_, h3, h4⟩
    · rw [churn, runJobOps, runJobOp_launch 1234 WaitResult.pending st hm (by decide) hroom1]
      simp only [runJobOps, runJobOp]
      exact h1
    · rw [h2, he1]
      show st.pidIndex + 1 + n = st.pidIndex + (n + 1)
      omega

/-- C12 (the code at a failing input).  A hundred jobs are launched and
collected one after the other (`churn 100`), so that never more than one job is
tracked.  Every operation returns; afterwards every slot of the table is zero,
yet `pidIndex` is 100, because `createFork` only ever increments it and
`checkBackgroundStatus` clears the slot without giving the index back.  The
next background launch executes `pidArray[pidIndex++] = spawnPid` with
`pidIndex` = 100, a store past the array of 100 entries: the pid is stored in
none of the 100 slots. -/
theorem job_table_hundred_and_first :
    launches (churn 100) = 100 ∧
    ∃ st, runJobOps (churn 100) Shell.initial = some st ∧
      st.pidIndex = 100 ∧ st.pidArray = List.replicate 100 0 ∧
      createFork (backgroundEnv 1234 WaitResult.pending) [some "sleep", some "&", none] 1
        terminateFgChild ignoreSIGTSTP st = Flow.undefined ∧
      runJobOp (JobOp.launch 1234 WaitResult.pending) st = none := by
  refine ⟨by rfl, ?_⟩
  obtain ⟨st, h1, h2, h3, h4⟩ := churn_state 100 Shell.initial rfl rfl (by decide)
  have hidx : st.pidIndex = 100 := by rw [h2]; rfl
  obtain ⟨g1, g2⟩ := runJobOp_launch_full 1234 WaitResult.pending st h4 (by decide)
    (by omega)
  exact ⟨st, h1, hidx, h3, g1, g2⟩

/-! ## C17: the index passed as `lastIndex` -/

/-- C17 (the code at a failing input).  For the accepted line `ls`, two
spaces, `-l`, newline, `numArguments` is 2 (three white-space characters, less
one) while `tokenizeString` produces the tokens `ls` and `-l`, the last at index
1.  Entry 2 is the NULL that ends the array, so `isBackgroundProcess` calls
`strcmp` on NULL.  With single spaces the two agree. -/
theorem numArguments_counts_every_space :
    numArguments "ls  -l\n".data = 2 ∧
    tokenizeString "ls  -l".data = some [some "ls", some "-l", none] ∧
    isBackgroundProcess [some "ls", some "-l", none] 2 (installSignals Shell.initial) = none ∧
    promptRound doubleSpace (installSignals Shell.initial) = Flow.undefined ∧
    numArguments "ls -l\n".data = 1 ∧
    tokenizeString "ls -l".data = some [some "ls", some "-l", none] := by
  exact ⟨by rfl, by rfl, by rfl, by rfl, by rfl, by rfl⟩

/-! ## C18: `variableExpansion` -/

theorem expandAll_of_no_dollar (pidString : List Char) (l : List Char)
    (h : ∀ c ∈ l, c ≠ '$') : expandAll pidString l = l := by
  induction l with
  | nil => rfl
  | cons c rest ih =>
    cases rest with
    | nil => rfl
    | cons d rest1 =>
      have hc : c ≠ '$' := h c (List.mem_cons_self _ _)
      rw [expandAll, if_neg (fun hh => hc hh.1),
        ih (fun x hx => h x (List.mem_cons_of_mem _ hx))]

theorem strstrDollars_longLine : strstrDollars longLine = some 0 := by
  simp [strstrDollars, longLine]

theorem length_longLine : longLine.length = 2044 := by
  simp [longLine]

/-- C18 (the code at a failing input).  In a shell with pid 12345 the line
`longLine` has 2044 characters and one "$$"; fully expanded it would have 2047,
within the limit of 2048.  The loop adds the five digits to its count without
taking off the two characters replaced, finds 2049 > 2048, prints its message
and stops: the line is left as it was, "$$" included.  A short line is expanded
as the claim says. -/
theorem variableExpansion_stops_early :
    longLine.length = 2044 ∧
    (expandAll (fmtInt 12345).data longLine).length = 2047 ∧
    variableExpansion 12345 longLine 2044 Shell.initial =
      some (longLine, 2043,
        { Shell.initial with
          out := ["\nYou have exceeded the allowable size of the buffer!\n"] }) ∧
    variableExpansion 12345 "echo $$\n".data 8 Shell.initial =
      some ("echo 12345\n".data, 10, Shell.initial) := by
  have hpid : (fmtInt 12345).data = ['1', '2', '3', '4', '5'] := by rfl
  refine ⟨length_longLine, ?_, ?_, by rfl⟩
  · have hrest : expandAll (fmtInt 12345).data (List.replicate 2041 'a' ++ ['\n'])
        = List.replicate 2041 'a' ++ ['\n'] := by
      apply expandAll_of_no_dollar
      intro c hc
      rw [List.mem_append, List.mem_singleton] at hc
      rcases hc with hc | hc
      · rw [(List.mem_replicate.1 hc).2]; decide
      · rw [hc]; decide
    have he : expandAll (fmtInt 12345).data longLine =
        (fmtInt 12345).data ++ (List.replicate 2041 'a' ++ ['\n']) := by
      rw [longLine, expandAll, if_pos ⟨rfl, rfl⟩, hrest]
    rw [he, hpid]
    simp
  · rw [variableExpansion, strstrDollars_longLine]
    simp only [length_longLine]
    rw [variableExpansionLoop]
    simp only [List.drop_zero, strstrDollars_longLine, hpid]
    simp only [List.length_cons, List.length_nil]
    rw [if_pos (by decide)]
    simp only [length_longLine]
    rfl

end CustomShell
